import Mathlib

/-! # Node lifecycle, configuration push and assignment: a shallow embedding

The development embeds the node repository of the orchestrator service
(`orchestrator-service/internal/repositories/node_repository.go`), the node handlers of
the API service (`api-service/internal/handlers/node_handler.go`), the configuration
push of the orchestrator (`orchestrator-service/internal/handlers/node_config.go`) and
the placeholder control surface of the agent
(`agent-service/internal/handlers/node_manager_handler.go`); further the agent's status
call, heartbeat and configuration generation (`agent.go`, `metrics_collector.go`,
`hysteria_manager.go`) and the users, passwords, tokens and middleware of the API service
(`user_handler.go`, `user_service.go`, `user_repository.go`, `auth_service.go`,
`utils/jwt.go`, `middleware/auth.go`). Calls into libraries whose result the sources
only pass on (Argon2id, the reading and writing of JSON) are parameters.

The relational store is modelled as the list of rows of the `vps_nodes` table, in
insertion order. The repository methods are one-line calls into the ORM; each is embedded
as the statement the call issues:

* `db.Create(v)`           INSERT, after the `BeforeCreate` hook and the column defaults;
* `db.Save(v)`             UPDATE of all columns by primary key, INSERT when no row matched;
* `db.Delete(&T{}, cond)`  DELETE of the matching rows (`VPSNode` declares no
                           `DeletedAt` column, so the rows are removed), refused when a
                           row of another table refers to one of them;
* `db.Model(&T{}).Where(cond).Update(col, v)`  UPDATE of one column of the matching rows;
  when the value fits the column, the returned `Error` is nil whatever the number of rows
  affected;
* `db.First(&v, cond)`     matching row of least primary key, `ErrRecordNotFound` when
                           there is none;
* `db.Where(cond).Find(&vs)`  all matching rows.

Node ids are well-formed UUIDs (the handlers parse them with `uuid.Parse` before any
repository call); instants are natural numbers (seconds). The texts of a row are bound by
the sizes of their columns (`size:100` and so on in the model's tags): a write of a longer
text is refused. Only the `vps_nodes` table is listed in the store; the rows of
`node_assignments`, `node_metrics` and `deployments`, which refer to a node by foreign
key, enter as the predicate `referenced` of `Delete`.
-/

namespace Hysteria2

/-! ## Data model (`internal/models/models.go`) -/

/-- The type `uuid.UUID`. -/
abbrev UUID := Nat

/-- The zero UUID `uuid.Nil`. -/
def uuid.Nil : UUID := 0

/-- Instants (`time.Time`), in seconds. -/
abbrev Time := Nat

def NodeStatusOffline : String := "offline"
def NodeStatusOnline : String := "online"
def NodeStatusMaintenance : String := "maintenance"
def NodeStatusError : String := "error"

def DeploymentStatusPending : String := "pending"
def DeploymentStatusDeploying : String := "deploying"
def DeploymentStatusSuccess : String := "success"
def DeploymentStatusFailed : String := "failed"

/-- The record `VPSNode` (relations omitted). `LastHeartbeat` is `none` for the unset
value: the nil pointer of the API service's model, the zero `time.Time` of the
orchestrator's. `Capabilities` and `Metadata` are string maps, as the requests carry
them. -/
structure VPSNode where
  ID : UUID
  Name : String
  Hostname : String
  IPAddress : String
  Location : String
  Country : String
  GRPCPort : Int
  Status : String
  Version : String
  Capabilities : List (String × String)
  CreatedAt : Option Time
  LastHeartbeat : Option Time
  Metadata : List (String × String)
  deriving DecidableEq, Repr

/-- The method `(n *VPSNode) IsOnline`. -/
def VPSNode.IsOnline (n : VPSNode) : Bool :=
  n.Status == "online"

/-- The hook `(v *VPSNode) BeforeCreate`; `fresh` is the value of `uuid.New()`. -/
def VPSNode.BeforeCreate (fresh : UUID) (v : VPSNode) : VPSNode :=
  if v.ID = uuid.Nil then { v with ID := fresh } else v

/-! ## The store -/

/-- Errors of the store. -/
inductive DBError where
  | ErrRecordNotFound
  | ErrDuplicatedKey
  | ErrCheckConstraintViolated
  | ErrForeignKeyViolated
  | ErrValueTooLong
  deriving DecidableEq, Repr

/-- Rows of `vps_nodes`, in insertion order. -/
abbrev NodeStore := List VPSNode

/-- Column defaults of `vps_nodes`, applied on INSERT to the fields left at their zero
value: `grpc_port` 50051, `status` 'offline', `created_at` CURRENT_TIMESTAMP. -/
def applyDefaults (now : Time) (v : VPSNode) : VPSNode :=
  { v with
    GRPCPort := if v.GRPCPort = 0 then 50051 else v.GRPCPort
    Status := if v.Status = "" then "offline" else v.Status
    CreatedAt := match v.CreatedAt with
      | none => some now
      | some t => some t }

/-- What a column `varchar(size)` stores for a text: the text itself when it has at most
`size` characters, its first `size` characters when the characters beyond are all spaces;
any other text is refused (`none`). -/
def fitColumn (size : Nat) (s : String) : Option String :=
  if s.length ≤ size then some s
  else if (s.data.drop size).all (fun c => c == ' ') then some (String.mk (s.data.take size))
  else none

/-- The texts of a row as the sized columns of `vps_nodes` store them, in the order name
(`size:100`), hostname (`size:255`), ip_address (`size:45`), location (`size:100`),
country (`size:2`), status (`size:20`), version (`size:50`); `none` when one of them is
refused. -/
def fitTexts (v : VPSNode) :
    Option (String × String × String × String × String × String × String) := do
  let name ← fitColumn 100 v.Name
  let hostname ← fitColumn 255 v.Hostname
  let ip ← fitColumn 45 v.IPAddress
  let location ← fitColumn 100 v.Location
  let country ← fitColumn 2 v.Country
  let status ← fitColumn 20 v.Status
  let version ← fitColumn 50 v.Version
  pure (name, hostname, ip, location, country, status, version)

/-- The row as the table stores it, `none` when a text is refused by its column. -/
def fitColumns (v : VPSNode) : Option VPSNode :=
  (fitTexts v).map (fun t =>
    { v with Name := t.1, Hostname := t.2.1, IPAddress := t.2.2.1, Location := t.2.2.2.1,
             Country := t.2.2.2.2.1, Status := t.2.2.2.2.2.1, Version := t.2.2.2.2.2.2 })

/-- Every text of the record has at most as many characters as its column holds. -/
def VPSNode.fits (v : VPSNode) : Bool :=
  decide (v.Name.length ≤ 100) && decide (v.Hostname.length ≤ 255) &&
  decide (v.IPAddress.length ≤ 45) && decide (v.Location.length ≤ 100) &&
  decide (v.Country.length ≤ 2) && decide (v.Status.length ≤ 20) &&
  decide (v.Version.length ≤ 50)

/-- INSERT of one row: refused when a text does not fit its column, and when the primary
key is already present. -/
def insertRow (v : VPSNode) (db : NodeStore) : Option DBError × NodeStore :=
  match fitColumns v with
  | none => (some DBError.ErrValueTooLong, db)
  | some row =>
    if db.any (fun n => n.ID == row.ID) then (some DBError.ErrDuplicatedKey, db)
    else (none, db ++ [row])

/-- The call `db.Create(node)`: hook, defaults, INSERT. The second component is the
record as the caller sees it afterwards (the call writes the id and the defaults back). -/
def dbCreate (fresh : UUID) (now : Time) (node : VPSNode) (db : NodeStore) :
    Option DBError × VPSNode × NodeStore :=
  let v := applyDefaults now (node.BeforeCreate fresh)
  let r := insertRow v db
  (r.1, v, r.2)

/-- The call `db.Save(node)`: with a zero primary key it is `Create`; otherwise all
columns of the row with that key are overwritten, and when no row has the key the record
is inserted (hooks skipped). A text that does not fit its column refuses the write. -/
def dbSave (fresh : UUID) (now : Time) (node : VPSNode) (db : NodeStore) :
    Option DBError × NodeStore :=
  if node.ID = uuid.Nil then
    let r := dbCreate fresh now node db
    (r.1, r.2.2)
  else if db.any (fun n => n.ID == node.ID) then
    match fitColumns node with
    | none => (some DBError.ErrValueTooLong, db)
    | some row => (none, db.map (fun n => if n.ID = node.ID then row else n))
  else
    insertRow (applyDefaults now node) db

/-- The call `db.First(&node, cond)`: the matching row with the least primary key,
`ErrRecordNotFound` when no row matches. -/
def dbFirst (cond : VPSNode → Bool) (db : NodeStore) : Except DBError VPSNode :=
  match db.filter cond with
  | [] => .error DBError.ErrRecordNotFound
  | n :: ns => .ok (ns.foldl (fun best m => if m.ID < best.ID then m else best) n)

/-! ## `NodeRepository` (`internal/repositories/node_repository.go`) -/

namespace NodeRepository

/-- `Create`: `r.db.Create(node).Error`. -/
def Create (fresh : UUID) (now : Time) (node : VPSNode) (db : NodeStore) :
    Option DBError × NodeStore :=
  let r := dbCreate fresh now node db
  (r.1, r.2.2)

/-- `GetByID`: `r.db.First(&node, "id = ?", id)`. -/
def GetByID (id : UUID) (db : NodeStore) : Except DBError VPSNode :=
  dbFirst (fun n => n.ID == id) db

/-- `GetByIPAddress`: `r.db.First(&node, "ip_address = ?", ip)`. -/
def GetByIPAddress (ip : String) (db : NodeStore) : Except DBError VPSNode :=
  dbFirst (fun n => n.IPAddress == ip) db

/-- `Update`: `r.db.Save(node).Error`. -/
def Update (fresh : UUID) (now : Time) (node : VPSNode) (db : NodeStore) :
    Option DBError × NodeStore :=
  dbSave fresh now node db

/-- `Delete`: `r.db.Delete(&models.VPSNode{}, "id = ?", id).Error`. The tables
`node_assignments`, `node_metrics` and `deployments` refer to `vps_nodes` by foreign key
(`foreignKey:NodeID` in `models.go`, with no `OnDelete` rule), so the DELETE of a row that
one of their rows refers to is refused and removes nothing; `referenced id` tells whether
a row of those tables has `node_id = id`. -/
def Delete (referenced : UUID → Bool) (id : UUID) (db : NodeStore) :
    Option DBError × NodeStore :=
  if referenced id && db.any (fun n => n.ID == id) then (some DBError.ErrForeignKeyViolated, db)
  else (none, db.filter (fun n => !(n.ID == id)))

/-- `UpdateStatus`: `Model(..).Where("id = ?", id).Update("status", status).Error`; a
status that the column (`size:20`) does not hold refuses the statement. -/
def UpdateStatus (id : UUID) (status : String) (db : NodeStore) :
    Option DBError × NodeStore :=
  match fitColumn 20 status with
  | none => (some DBError.ErrValueTooLong, db)
  | some st => (none, db.map (fun n => if n.ID = id then { n with Status := st } else n))

/-- `UpdateLastHeartbeat`:
`Model(..).Where("id = ?", id).Update("last_heartbeat", heartbeat).Error`. -/
def UpdateLastHeartbeat (id : UUID) (heartbeat : Time) (db : NodeStore) :
    Option DBError × NodeStore :=
  (none, db.map (fun n => if n.ID = id then { n with LastHeartbeat := some heartbeat } else n))

/-- `GetOnlineNodes`: `r.db.Where("status = ?", models.NodeStatusOnline).Find(&nodes)`. -/
def GetOnlineNodes (db : NodeStore) : Option DBError × List VPSNode :=
  (none, db.filter (fun n => n.Status == NodeStatusOnline))

end NodeRepository

/-! ## Node handlers of the API service (`internal/handlers/node_handler.go`) -/

/-- The interface `NodeService` (the operations the handlers below call), over a state
`σ`. `CreateNode` also returns the record as the call leaves it. -/
structure NodeService (σ : Type) where
  CreateNode : VPSNode → σ → Option DBError × VPSNode × σ
  GetNodeByID : UUID → σ → Except DBError VPSNode
  UpdateNode : VPSNode → σ → Option DBError × σ
  DeleteNode : UUID → σ → Option DBError × σ
  UpdateNodeStatus : UUID → String → σ → Option DBError × σ
  GetOnlineNodes : σ → Option DBError × List VPSNode

/-- A node service for sample evaluations of the handlers: each method hands its
arguments to the repository method of the same role and adds nothing of its own, over a
database whose other tables hold no row. The service the handlers are built with
(`services.NewNodeService`) is not among the sources; the handlers take it as the
parameter `svc`. -/
def repoNodeService (fresh : UUID) (now : Time) : NodeService NodeStore where
  CreateNode := fun node db => dbCreate fresh now node db
  GetNodeByID := fun id db => NodeRepository.GetByID id db
  UpdateNode := fun node db => NodeRepository.Update fresh now node db
  DeleteNode := fun id db => NodeRepository.Delete (fun _ => false) id db
  UpdateNodeStatus := fun id status db => NodeRepository.UpdateStatus id status db
  GetOnlineNodes := fun db => NodeRepository.GetOnlineNodes db

/-- The request body `CreateNodeRequest`. -/
structure CreateNodeRequest where
  Name : String
  Hostname : String
  IPAddress : String
  Location : String
  Country : String
  GRPCPort : Int
  Capabilities : List (String × String)
  Metadata : List (String × String)
  deriving DecidableEq, Repr

/-- The request body `UpdateNodeRequest`; a nil pointer is `none`. -/
structure UpdateNodeRequest where
  Name : Option String
  Hostname : Option String
  IPAddress : Option String
  Location : Option String
  Country : Option String
  GRPCPort : Option Int
  Status : Option String
  Capabilities : Option (List (String × String))
  Metadata : Option (List (String × String))
  deriving DecidableEq, Repr

/-- What a handler answers: the HTTP status, the node of the JSON body (if any) and the
error text of the JSON body (if any). -/
structure Response where
  code : Nat
  node : Option VPSNode
  error : Option String
  deriving DecidableEq, Repr

def StatusCreated : Nat := 201
def StatusOK : Nat := 200
def StatusNoContent : Nat := 204
def StatusBadRequest : Nat := 400
def StatusNotFound : Nat := 404
def StatusInternalServerError : Nat := 500

/-- The text `err.Error()`. -/
def DBError.Error : DBError → String
  | .ErrRecordNotFound => "record not found"
  | .ErrDuplicatedKey => "duplicated key not allowed"
  | .ErrCheckConstraintViolated => "violates check constraint"
  | .ErrForeignKeyViolated => "violates foreign key constraint"
  | .ErrValueTooLong => "value too long for type character varying"

namespace NodeHandler

/-- The record `CreateNode` builds from the request (lines 113-128): the port default,
then the struct literal; the fields the literal leaves out keep their zero value. -/
def newNode (req : CreateNodeRequest) : VPSNode :=
  let port := if req.GRPCPort = 0 then 50051 else req.GRPCPort
  { ID := uuid.Nil
    Name := req.Name
    Hostname := req.Hostname
    IPAddress := req.IPAddress
    Location := req.Location
    Country := req.Country
    GRPCPort := port
    Status := "offline"
    Version := ""
    Capabilities := req.Capabilities
    CreatedAt := none
    LastHeartbeat := none
    Metadata := req.Metadata }

/-- The handler `CreateNode`; `body` is the outcome of `c.BodyParser(&req)`, `none` when
it fails. -/
def CreateNode {σ : Type} (svc : NodeService σ) (body : Option CreateNodeRequest) (s : σ) :
    Response × σ :=
  match body with
  | none => ({ code := StatusBadRequest, node := none, error := some "Invalid request body" }, s)
  | some req =>
    match svc.CreateNode (newNode req) s with
    | (some err, _, s1) => ({ code := StatusBadRequest, node := none, error := some err.Error }, s1)
    | (none, node, s1) => ({ code := StatusCreated, node := some node, error := none }, s1)

/-- The field updates of `UpdateNode` (lines 167-194). -/
def applyUpdate (req : UpdateNodeRequest) (node : VPSNode) : VPSNode :=
  let node := match req.Name with | some v => { node with Name := v } | none => node
  let node := match req.Hostname with | some v => { node with Hostname := v } | none => node
  let node := match req.IPAddress with | some v => { node with IPAddress := v } | none => node
  let node := match req.Location with | some v => { node with Location := v } | none => node
  let node := match req.Country with | some v => { node with Country := v } | none => node
  let node := match req.GRPCPort with | some v => { node with GRPCPort := v } | none => node
  let node := match req.Status with | some v => { node with Status := v } | none => node
  let node := match req.Capabilities with
    | some v => { node with Capabilities := v } | none => node
  let node := match req.Metadata with | some v => { node with Metadata := v } | none => node
  node

/-- The handler `UpdateNode`; `id` is the outcome of `uuid.Parse(c.Params("id"))` and
`body` that of `c.BodyParser(&req)`, `none` when they fail. -/
def UpdateNode {σ : Type} (svc : NodeService σ) (id : Option UUID)
    (body : Option UpdateNodeRequest) (s : σ) : Response × σ :=
  match id with
  | none => ({ code := StatusBadRequest, node := none, error := some "Invalid node ID" }, s)
  | some nodeID =>
    match body with
    | none =>
      ({ code := StatusBadRequest, node := none, error := some "Invalid request body" }, s)
    | some req =>
      match svc.GetNodeByID nodeID s with
      | .error _ => ({ code := StatusNotFound, node := none, error := some "Node not found" }, s)
      | .ok node =>
        let node := applyUpdate req node
        match svc.UpdateNode node s with
        | (some _, s1) =>
          ({ code := StatusInternalServerError, node := none,
             error := some "Failed to update node" }, s1)
        | (none, s1) => ({ code := StatusOK, node := some node, error := none }, s1)

/-- The handler `DeleteNode`; `id` is the outcome of `uuid.Parse(c.Params("id"))`. -/
def DeleteNode {σ : Type} (svc : NodeService σ) (id : Option UUID) (s : σ) : Response × σ :=
  match id with
  | none => ({ code := StatusBadRequest, node := none, error := some "Invalid node ID" }, s)
  | some nodeID =>
    match svc.DeleteNode nodeID s with
    | (some _, s1) =>
      ({ code := StatusInternalServerError, node := none,
         error := some "Failed to delete node" }, s1)
    | (none, s1) => ({ code := StatusNoContent, node := none, error := none }, s1)

end NodeHandler

/-- The `oneof` list on `UpdateNodeRequest.Status`
(`validate:"omitempty,oneof=online offline maintenance error"`). -/
def nodeStatuses : List String :=
  [NodeStatusOnline, NodeStatusOffline, NodeStatusMaintenance, NodeStatusError]

/-! ## Configuration push (`orchestrator-service/internal/handlers/node_config.go`) and
the agent's control surface (`agent-service/internal/handlers/node_manager_handler.go`) -/

/-- A `context.Context`, as far as its deadline goes. -/
structure Context where
  deadline : Option Time
  deriving DecidableEq, Repr

/-- The context `context.Background()`: no deadline. -/
def Context.Background : Context := { deadline := none }

/-- A failed remote call: the error a client stub returns in place of a response. -/
inductive RPCError where
  | Unavailable
  | DeadlineExceeded
  | Other (msg : String)
  deriving DecidableEq, Repr

structure ConfigUpdateRequest where
  Config : String
  deriving DecidableEq, Repr

structure ConfigUpdateResponse where
  Success : Bool
  Message : String
  deriving DecidableEq, Repr

structure ReloadRequest where
  deriving DecidableEq, Repr

structure ReloadResponse where
  Success : Bool
  Message : String
  deriving DecidableEq, Repr

structure UpdateNodeConfigRequest where
  NodeId : String
  Config : String
  deriving DecidableEq, Repr

structure UpdateNodeConfigResponse where
  Success : Bool
  deriving DecidableEq, Repr

structure StatusRequest where
  deriving DecidableEq, Repr

/-- The message `pb.StatusResponse`, as far as the sources read it: the field
`HysteriaConfig`. -/
structure StatusResponse where
  HysteriaConfig : String
  deriving DecidableEq, Repr

structure GetNodeConfigRequest where
  NodeId : String
  deriving DecidableEq, Repr

structure GetNodeConfigResponse where
  Config : String
  deriving DecidableEq, Repr

/-- The client stub `pb.NodeManagerClient`, as far as `GetNodeConfig` and
`UpdateNodeConfig` use it: each call takes the context and the request and returns a
response or a transport error. Where `GetStatus` is not given it answers the empty
`StatusResponse`, as the agent's placeholder does. -/
structure NodeManagerClient where
  UpdateConfig : Context → ConfigUpdateRequest → Except RPCError ConfigUpdateResponse
  ReloadConfig : Context → ReloadRequest → Except RPCError ReloadResponse
  GetStatus : Context → StatusRequest → Except RPCError StatusResponse :=
    fun _ _ => .ok { HysteriaConfig := "" }

namespace NodeManagerHandler

/-- The agent's `UpdateConfig`: a placeholder answering `Success: false` and a nil
error. -/
def UpdateConfig (_ctx : Context) (_req : ConfigUpdateRequest) :
    Except RPCError ConfigUpdateResponse :=
  .ok { Success := false, Message := "Not implemented" }

/-- The agent's `ReloadConfig`: a placeholder answering `Success: false` and a nil
error. -/
def ReloadConfig (_ctx : Context) (_req : ReloadRequest) : Except RPCError ReloadResponse :=
  .ok { Success := false, Message := "Not implemented" }

/-- The agent's `GetStatus`: a placeholder answering the empty `StatusResponse` and a nil
error. -/
def GetStatus (_ctx : Context) (_req : StatusRequest) : Except RPCError StatusResponse :=
  .ok { HysteriaConfig := "" }

end NodeManagerHandler

/-- A client connected to a reachable agent: each call is answered by the agent's
handler. -/
def agentClient : NodeManagerClient where
  UpdateConfig := NodeManagerHandler.UpdateConfig
  ReloadConfig := NodeManagerHandler.ReloadConfig
  GetStatus := NodeManagerHandler.GetStatus

/-- The orchestrator's `(h *NodeHandler) UpdateNodeConfig`. `getNodeConnection` (not among
the sources) is a parameter: it yields the client for a node id or fails. -/
def NodeHandler.UpdateNodeConfig (getNodeConnection : String → Except RPCError NodeManagerClient)
    (_ctx : Context) (req : UpdateNodeConfigRequest) :
    Except RPCError UpdateNodeConfigResponse :=
  match getNodeConnection req.NodeId with
  | .error err => .error err
  | .ok client =>
    match client.UpdateConfig Context.Background { Config := req.Config } with
    | .error err => .error err
    | .ok _ =>
      match client.ReloadConfig Context.Background {} with
      | .error err => .error err
      | .ok _ => .ok { Success := true }

/-- The orchestrator's `(h *NodeHandler) GetNodeConfig`; `getNodeConnection` is a
parameter, as for `UpdateNodeConfig`. -/
def NodeHandler.GetNodeConfig (getNodeConnection : String → Except RPCError NodeManagerClient)
    (_ctx : Context) (req : GetNodeConfigRequest) : Except RPCError GetNodeConfigResponse :=
  match getNodeConnection req.NodeId with
  | .error err => .error err
  | .ok client =>
    match client.GetStatus Context.Background {} with
    | .error err => .error err
    | .ok resp =>
      let config := if resp.HysteriaConfig = "" then "{}" else resp.HysteriaConfig
      .ok { Config := config }

/-- A node that tells which context a call reached it with: `GetStatus` reports it in
the configuration text, `UpdateConfig` (when `failPush`) and `ReloadConfig` fail with it
as the error text when the context has no deadline. -/
def deadlineProbe (failPush : Bool) : NodeManagerClient where
  UpdateConfig := fun ctx _ =>
    match ctx.deadline with
    | none =>
      if failPush then .error (RPCError.Other "UpdateConfig: no deadline")
      else .ok { Success := true, Message := "" }
    | some _ => .ok { Success := true, Message := "" }
  ReloadConfig := fun ctx _ =>
    match ctx.deadline with
    | none => .error (RPCError.Other "ReloadConfig: no deadline")
    | some _ => .ok { Success := true, Message := "" }
  GetStatus := fun ctx _ =>
    match ctx.deadline with
    | none => .ok { HysteriaConfig := "GetStatus: no deadline" }
    | some _ => .ok { HysteriaConfig := "GetStatus: deadline" }

/-! ## Go values, maps and outcomes -/

/-- A value of type `interface{}`, by dynamic type. A `float64` is given by the number it
denotes. -/
inductive GoValue where
  | nil
  | bool (b : Bool)
  | string (s : String)
  | int (n : Int)
  | int64 (n : Int)
  | uint32 (n : Nat)
  | uint64 (n : Nat)
  | float64 (x : Rat)
  | slice (vs : List GoValue)
  | map (fields : List (String × GoValue))
  deriving Repr

/-- A non-nil `map[string]interface{}`: its entries; the first entry of a key is the one
the map holds. -/
abbrev GoMap := List (String × GoValue)

/-- The read `m[k]`, `none` when the key is absent. -/
def GoMap.get (m : GoMap) (k : String) : Option GoValue :=
  (m.find? (fun e => e.1 == k)).map (fun e => e.2)

/-- The write `m[k] = v` on a non-nil map. -/
def GoMap.set (m : GoMap) (k : String) (v : GoValue) : GoMap :=
  m.filter (fun e => !(e.1 == k)) ++ [(k, v)]

/-- A non-nil `map[string]string`. -/
abbrev StringMap := List (String × String)

/-- The write `m[k] = v` on a non-nil `map[string]string`. -/
def StringMap.set (m : StringMap) (k : String) (v : String) : StringMap :=
  m.filter (fun e => !(e.1 == k)) ++ [(k, v)]

/-- How a call ends: with a value, with a returned error, or with a run-time panic. -/
inductive Outcome (α : Type) where
  | ok (a : α)
  | error (msg : String)
  | panic (msg : String)
  deriving DecidableEq, Repr

/-- The run-time panic of a write to a nil map. -/
def nilMapPanic : String := "assignment to entry in nil map"

/-- White space: the set of `unicode.IsSpace`, which is also that of the `isSpace` of the
`fmt` scanner. -/
def isSpace (c : Char) : Bool :=
  let n := c.toNat
  (0x0009 ≤ n && n ≤ 0x000d) || n == 0x0020 || n == 0x0085 || n == 0x00a0 || n == 0x1680 ||
  (0x2000 ≤ n && n ≤ 0x200a) || n == 0x2028 || n == 0x2029 || n == 0x202f || n == 0x205f ||
  n == 0x3000

/-- The call `strings.TrimSpace(s)`: leading and trailing white space removed. -/
def trimSpace (cs : List Char) : List Char :=
  (cs.dropWhile isSpace).rdropWhile isSpace

/-! ## The agent's status call (`hysteria_manager.go`, `node_manager_handler.go`) -/

/-- The struct `Hysteria2Config` (`agent-service/internal/config/config.go`). -/
structure Hysteria2Config where
  EnableBBR : Bool
  EnableSystemd : Bool
  PortHopping : Bool
  HopInterval : Int
  HopStartPort : Int
  HopEndPort : Int
  SalamanderEnabled : Bool
  SalamanderPassword : String
  ObfsType : String
  CustomConfig : String
  ListenPorts : List Int
  DefaultListenPort : Int
  AuthType : String
  AuthPassword : String
  UpMbps : Int
  DownMbps : Int
  deriving DecidableEq, Repr

/-- What the commands run by `GetHysteria2Status` report: whether `which hysteria`
succeeds, the output of `systemctl is-active hysteria2` (`none` when the command fails)
and whether `pgrep -f hysteria` succeeds. -/
structure HostStatus where
  whichHysteria : Bool
  systemctlIsActive : Option String
  pgrepHysteria : Bool
  deriving DecidableEq, Repr

namespace HysteriaManagerImpl

/-- `IsHysteria2Installed`: whether `which hysteria` succeeds. -/
def IsHysteria2Installed (host : HostStatus) : Bool :=
  host.whichHysteria

/-- `GetHysteria2Status`: the status map and the (always nil) error. -/
def GetHysteria2Status (cfg : Hysteria2Config) (host : HostStatus) : GoMap × Option String :=
  let status : GoMap :=
    [("installed", GoValue.bool (IsHysteria2Installed host)),
     ("running", GoValue.bool false),
     ("systemd", GoValue.bool cfg.EnableSystemd)]
  let status :=
    if cfg.EnableSystemd then
      match host.systemctlIsActive with
      | some output =>
        if trimSpace output.data = "active".data then status.set "running" (GoValue.bool true)
        else status
      | none => status
    else status.set "running" (GoValue.bool host.pgrepHysteria)
  (status, none)

end HysteriaManagerImpl

/-- The message `pb.GetHysteria2StatusResponse`; a nil `Status` map is `none`. -/
structure GetHysteria2StatusResponse where
  Status : Option StringMap
  deriving DecidableEq, Repr

/-- The text `fmt.Sprintf("%t", b)`. -/
def formatBool (b : Bool) : String :=
  if b then "true" else "false"

/-- The write `statusMap[k] = v` of the handler, on a map that may be nil. -/
def assignStatus (statusMap : Option StringMap) (k v : String) : Outcome (Option StringMap) :=
  match statusMap with
  | none => .panic nilMapPanic
  | some m => .ok (some (m.set k v))

/-- The conversion loop of `GetHysteria2Status` (lines 250-256) over the entries of
`status`, in the order the iteration visits them. -/
def convertStatus : List (String × GoValue) → Option StringMap → Outcome (Option StringMap)
  | [], statusMap => .ok statusMap
  | (k, v) :: rest, statusMap =>
    match v with
    | .string str =>
      match assignStatus statusMap k str with
      | .ok m => convertStatus rest m
      | .error msg => .error msg
      | .panic msg => .panic msg
    | .bool b =>
      match assignStatus statusMap k (formatBool b) with
      | .ok m => convertStatus rest m
      | .error msg => .error msg
      | .panic msg => .panic msg
    | _ => convertStatus rest statusMap

/-- The agent's `(h *NodeManagerHandler) GetHysteria2Status`; `status` is what
`HysteriaManager.GetHysteria2Status` returned. `statusMap` is declared
`var statusMap map[string]string`, hence nil. -/
def NodeManagerHandler.GetHysteria2Status (status : GoMap × Option String) :
    Outcome GetHysteria2StatusResponse :=
  match status.2 with
  | some err => .error ("failed to get Hysteria2 status: " ++ err)
  | none =>
    match convertStatus status.1 none with
    | .ok statusMap => .ok { Status := statusMap }
    | .error msg => .error msg
    | .panic msg => .panic msg

/-! ## Heartbeats of the agent (`metrics_collector.go`, `agent.go`) -/

/-- What the Go run time reports to `Collect`: `runtime.NumCPU()`,
`runtime.NumGoroutine()`, the fields of `runtime.MemStats` read, and `time.Now().Unix()`. -/
structure RuntimeStats where
  NumCPU : Int
  NumGoroutine : Int
  Alloc : Nat
  TotalAlloc : Nat
  Sys : Nat
  NumGC : Nat
  Unix : Int
  deriving DecidableEq, Repr

/-- `(mc *MetricsCollectorImpl) Collect`: the metrics map, each value with the dynamic type
of the expression that produced it (`int`, `uint64`, `uint32`, `int64`), and the nil
error. -/
def MetricsCollectorImpl.Collect (rt : RuntimeStats) : GoMap × Option String :=
  ([("cpu_cores", GoValue.int rt.NumCPU),
    ("goroutines", GoValue.int rt.NumGoroutine),
    ("memory_alloc", GoValue.uint64 rt.Alloc),
    ("memory_total", GoValue.uint64 rt.TotalAlloc),
    ("memory_sys", GoValue.uint64 rt.Sys),
    ("memory_gc", GoValue.uint32 rt.NumGC),
    ("timestamp", GoValue.int64 rt.Unix)], none)

/-- The message `pb.HeartbeatRequest`. -/
structure HeartbeatRequest where
  NodeId : String
  Status : String
  Metrics : List (String × Rat)
  Timestamp : Option Time
  deriving DecidableEq, Repr

structure HeartbeatResponse where
  Success : Bool
  Message : String
  deriving DecidableEq, Repr

namespace Agent

/-- The conversion loop of `sendHeartbeat` (lines 134-139) over the entries of `metrics`,
in the order the iteration visits them: the entries whose value has dynamic type
`float64` are written to the (non-nil) map `metricValues`. -/
def metricValues (metrics : List (String × GoValue)) : List (String × Rat) :=
  metrics.foldl
    (fun acc e =>
      match e.2 with
      | .float64 f => acc.filter (fun x => !(x.1 == e.1)) ++ [(e.1, f)]
      | _ => acc) []

/-- The request `sendHeartbeat` builds (lines 141-146); `metrics` is what
`MetricsCollector.Collect` returned. -/
def heartbeatRequest (nodeID : String) (metrics : GoMap × Option String) : HeartbeatRequest :=
  { NodeId := nodeID, Status := "online", Metrics := metricValues metrics.1,
    Timestamp := none }

/-- `(a *Agent) sendHeartbeat`: the request sent and the error returned; `Heartbeat` is
the call `a.masterClient.Heartbeat`. -/
def sendHeartbeat (nodeID : String) (metrics : GoMap × Option String)
    (Heartbeat : Context → HeartbeatRequest → Except RPCError HeartbeatResponse)
    (ctx : Context) : HeartbeatRequest × Option RPCError :=
  let req := heartbeatRequest nodeID metrics
  match Heartbeat ctx req with
  | .error err => (req, some err)
  | .ok _ => (req, none)

end Agent

/-! ## Users of the API service (`models.go`, `user_repository.go`, `user_service.go`,
`user_handler.go`) -/

/-- The record `User` of the API service (relations omitted); a zero `time.Time` and a
nil pointer are `none`. -/
structure User where
  ID : UUID
  Username : String
  Email : String
  Password : String
  FullName : Option String
  Status : String
  Role : String
  DataLimit : Int
  DataUsed : Int
  ExpiryDate : Option Time
  CreatedAt : Option Time
  UpdatedAt : Option Time
  LastLogin : Option Time
  Notes : Option String
  deriving DecidableEq, Repr

/-- Rows of `users`, in insertion order. -/
abbrev UserStore := List User

/-- The hook `(u *User) BeforeCreate`; `fresh` is the value of `uuid.New()`. -/
def User.BeforeCreate (fresh : UUID) (u : User) : User :=
  if u.ID = uuid.Nil then { u with ID := fresh } else u

/-- Column defaults of `users`, applied on INSERT to the fields left at their zero value
(`status` 'active', `role` 'user'), and the creation and update times. -/
def applyUserDefaults (now : Time) (u : User) : User :=
  { u with
    Status := if u.Status = "" then "active" else u.Status
    Role := if u.Role = "" then "user" else u.Role
    CreatedAt := match u.CreatedAt with
      | none => some now
      | some t => some t
    UpdatedAt := match u.UpdatedAt with
      | none => some now
      | some t => some t }

/-- INSERT of one row of `users`: refused when the primary key, the username or the email
is already present (`primaryKey`, `uniqueIndex`), or when the status or the role is
outside its `check` list. -/
def insertUser (u : User) (db : UserStore) : Option DBError × UserStore :=
  if db.any (fun x => x.ID == u.ID || x.Username == u.Username || x.Email == u.Email) then
    (some DBError.ErrDuplicatedKey, db)
  else if !(["active", "suspended", "deleted"].contains u.Status) ||
      !(["admin", "user"].contains u.Role) then
    (some DBError.ErrCheckConstraintViolated, db)
  else (none, db ++ [u])

namespace userRepository

/-- `Create`: `r.db.WithContext(ctx).Create(user).Error`; the second component is the
record as the caller sees it afterwards. -/
def Create (fresh : UUID) (now : Time) (user : User) (db : UserStore) :
    Option DBError × User × UserStore :=
  let u := applyUserDefaults now (user.BeforeCreate fresh)
  let r := insertUser u db
  (r.1, u, r.2)

/-- `GetByEmail`: `r.db.WithContext(ctx).Where("email = ?", email).First(&user)`: the
matching row of least primary key. -/
def GetByEmail (email : String) (db : UserStore) : Except DBError User :=
  match db.filter (fun u => u.Email == email) with
  | [] => .error DBError.ErrRecordNotFound
  | u :: us => .ok (us.foldl (fun best m => if m.ID < best.ID then m else best) u)

/-- `UpdateLastLogin`:
`Model(&models.User{}).Where("id = ?", id).Update("last_login", gorm.Expr("NOW()"))`. -/
def UpdateLastLogin (now : Time) (id : UUID) (db : UserStore) : Option DBError × UserStore :=
  (none, db.map (fun u => if u.ID = id then { u with LastLogin := some now } else u))

end userRepository

/-- `(s *userService) CreateUser`: `return s.userRepo.Create(ctx, user)`. -/
def userService.CreateUser (fresh : UUID) (now : Time) (user : User) (db : UserStore) :
    Option DBError × User × UserStore :=
  userRepository.Create fresh now user db

/-- The interface `UserService`, as far as `CreateUser` below calls it, over a state `σ`. -/
structure UserService (σ : Type) where
  CreateUser : User → σ → Option DBError × User × σ

/-- The service `NewUserService` builds, over the user store. -/
def userServiceImpl (fresh : UUID) (now : Time) : UserService UserStore where
  CreateUser := fun user db => userService.CreateUser fresh now user db

/-- The request body `CreateUserRequest`. -/
structure CreateUserRequest where
  Username : String
  Email : String
  Password : String
  FullName : Option String
  Role : String
  DataLimit : Int
  Notes : Option String
  deriving DecidableEq, Repr

/-- What a user handler answers: the HTTP status, the user of the JSON body (if any) and
the error text of the JSON body (if any). -/
structure UserResponse where
  code : Nat
  user : Option User
  error : Option String
  deriving DecidableEq, Repr

namespace UserHandler

/-- The record `CreateUser` builds from the request (lines 111-120). -/
def newUser (req : CreateUserRequest) : User :=
  { ID := uuid.Nil
    Username := req.Username
    Email := req.Email
    Password := req.Password
    FullName := req.FullName
    Status := "active"
    Role := req.Role
    DataLimit := req.DataLimit
    DataUsed := 0
    ExpiryDate := none
    CreatedAt := none
    UpdatedAt := none
    LastLogin := none
    Notes := req.Notes }

/-- The handler `CreateUser`; `body` is the outcome of `c.BodyParser(&req)`, `none` when
it fails. -/
def CreateUser {σ : Type} (svc : UserService σ) (body : Option CreateUserRequest) (s : σ) :
    UserResponse × σ :=
  match body with
  | none => ({ code := StatusBadRequest, user := none, error := some "Invalid request body" }, s)
  | some req =>
    match svc.CreateUser (newUser req) s with
    | (some err, _, s1) => ({ code := StatusBadRequest, user := none, error := some err.Error }, s1)
    | (none, user, s1) => ({ code := StatusCreated, user := some user, error := none }, s1)

end UserHandler

/-! ## Password hashing (`auth_service.go`) -/

/-- One byte. -/
abbrev Byte := Fin 256

/-- The function `argon2.IDKey(password, salt, time, memory, threads, keyLen)`, a
parameter of the definitions below; the password is given as the string whose bytes are
hashed. -/
abbrev Argon2 := String → List Byte → Nat → Nat → Nat → Nat → List Byte

/-- The lower-case hexadecimal digit of a value below 16. -/
def hexDigitChar : Nat → Char
  | 0 => '0' | 1 => '1' | 2 => '2' | 3 => '3' | 4 => '4' | 5 => '5' | 6 => '6' | 7 => '7'
  | 8 => '8' | 9 => '9' | 10 => 'a' | 11 => 'b' | 12 => 'c' | 13 => 'd' | 14 => 'e'
  | _ => 'f'

/-- The text `fmt.Sprintf("%x", bytes)`: two lower-case digits per byte. -/
def hexEncode : List Byte → List Char
  | [] => []
  | b :: bs => hexDigitChar (b.val / 16) :: hexDigitChar (b.val % 16) :: hexEncode bs

/-- The function `hexDigit` of the scanner: the value of a hexadecimal digit, of either
case. -/
def hexDigit (c : Char) : Option Nat :=
  if '0' ≤ c ∧ c ≤ '9' then some (c.toNat - '0'.toNat)
  else if 'a' ≤ c ∧ c ≤ 'f' then some (10 + c.toNat - 'a'.toNat)
  else if 'A' ≤ c ∧ c ≤ 'F' then some (10 + c.toNat - 'A'.toNat)
  else none

/-- The scanner's `SkipSpace` under `Sscanf`: leading spaces are dropped, a newline is an
error. -/
def skipSpace : List Char → Except String (List Char)
  | [] => .ok []
  | c :: cs =>
    if c = '\n' then .error "unexpected newline"
    else if isSpace c then skipSpace cs
    else .ok (c :: cs)

/-- The loop of the scanner's `hexString`: pairs of hexadecimal digits are read as bytes
until the input ends or a character that is no digit stands where a pair would start; a
pair cut short by the end of the input or by a character that is no digit is an error. -/
def hexPairs : List Char → Except String (List Byte)
  | [] => .ok []
  | [c1] =>
    match hexDigit c1 with
    | none => .ok []
    | some _ => .error "unexpected EOF"
  | c1 :: c2 :: rest =>
    match hexDigit c1 with
    | none => .ok []
    | some v1 =>
      match hexDigit c2 with
      | none => .error "illegal hex digit"
      | some v2 =>
        match hexPairs rest with
        | .error e => .error e
        | .ok bs => .ok (Fin.ofNat (v1 * 16 + v2) :: bs)

/-- The call `fmt.Sscanf(input, "%x", &bytes)`: the bytes scanned, or the error. -/
def sscanfHex (input : String) : Except String (List Byte) :=
  match skipSpace input.data with
  | .error e => .error e
  | .ok [] => .error "unexpected EOF"
  | .ok (c :: cs) =>
    match hexPairs (c :: cs) with
    | .error e => .error e
    | .ok [] => .error "no hex data for %x string"
    | .ok (b :: bs) => .ok (b :: bs)

namespace authService

/-- `hashPassword`; `salt` is the outcome of `rand.Read` on 32 bytes: the bytes read, or
the error. -/
def hashPassword (IDKey : Argon2) (salt : Except String (List Byte)) (password : String) :
    Except String String :=
  match salt with
  | .error e => .error e
  | .ok salt =>
    let hash := IDKey password salt 1 (64 * 1024) 4 32
    .ok (String.mk (hexEncode (salt ++ hash)))

/-- `verifyPassword`. -/
def verifyPassword (IDKey : Argon2) (password hashedPassword : String) : Bool :=
  match sscanfHex hashedPassword with
  | .error _ => false
  | .ok hashBytes =>
    if hashBytes.length < 32 then false
    else
      let salt := hashBytes.take 32
      let storedHash := hashBytes.drop 32
      let computedHash := IDKey password salt 1 (64 * 1024) 4 32
      decide (storedHash = computedHash)

/-- `Login`: the user or the error text, and the store afterwards. -/
def Login (IDKey : Argon2) (now : Time) (email password : String) (db : UserStore) :
    Except String User × UserStore :=
  match userRepository.GetByEmail email db with
  | .error _ => (.error "invalid credentials", db)
  | .ok user =>
    if !(verifyPassword IDKey password user.Password) then (.error "invalid credentials", db)
    else if user.Status ≠ "active" then (.error "account is not active", db)
    else (.ok user, (userRepository.UpdateLastLogin now user.ID db).2)

end authService

/-! ## Tokens (`utils/jwt.go`, `auth_service.go`) and the middleware
(`middleware/auth.go`) -/

/-- The struct `interfaces.Claims`. -/
structure Claims where
  UserID : String
  Username : String
  Role : String
  deriving DecidableEq, Repr

/-- A token string as `jwt.Parse` reads it: either no well-formed compact token, or the
compact form of a header naming the algorithm `alg`, a set of claims, and a signature
made with the key `key`. A signature verifies under a key exactly when it was made with
that key. Numbers among the claims stand for the JSON numbers of the payload. -/
inductive TokenString where
  | malformed
  | compact (alg : String) (claims : GoMap) (key : String)
  deriving Repr

/-- The text `userID.String()`: 32 lower-case hexadecimal digits in groups of 8, 4, 4, 4
and 12. -/
def UUID.String (u : UUID) : String :=
  let digit := fun (i : Nat) => hexDigitChar ((u / 16 ^ (31 - i)) % 16)
  let group := fun (start len : Nat) => (List.range len).map (fun j => digit (start + j))
  String.mk (group 0 8 ++ ['-'] ++ group 8 4 ++ ['-'] ++ group 12 4 ++ ['-'] ++ group 16 4 ++
    ['-'] ++ group 20 12)

/-- The number a claim value denotes, if it is a number. -/
def GoValue.number? : GoValue → Option Rat
  | .int n => some n
  | .int64 n => some n
  | .uint32 n => some n
  | .uint64 n => some n
  | .float64 x => some x
  | _ => none

/-- `GenerateJWT`; `now` is the value of `time.Now()`, `expiry` the duration in seconds.
Signing with HS256 and a byte key does not fail. -/
def GenerateJWT (now : Time) (userID : UUID) (secret : String) (expiry : Int) :
    Except String TokenString :=
  let claims : Claims :=
    { UserID := userID.String
      Username := ""
      Role := "" }
  .ok (TokenString.compact "HS256"
    [("user_id", GoValue.string claims.UserID),
     ("username", GoValue.string claims.Username),
     ("role", GoValue.string claims.Role),
     ("iat", GoValue.int64 now),
     ("exp", GoValue.int64 (now + expiry)),
     ("iss", GoValue.string "hysteria2-api"),
     ("sub", GoValue.string userID.String)]
    secret)

/-- The check `jwt.Parse` makes on the registered time claims at the instant `now`: `exp`,
when present, must be a number after `now`; `nbf`, when present, must be a number not
after `now`. -/
def timeClaimsValid (now : Time) (claims : GoMap) : Bool :=
  (match claims.get "exp" with
    | none => true
    | some v =>
      match v.number? with
      | none => false
      | some e => decide ((now : Rat) < e)) &&
  (match claims.get "nbf" with
    | none => true
    | some v =>
      match v.number? with
      | none => false
      | some n => decide (n ≤ (now : Rat)))

/-- `ValidateJWT` at the instant `now`. `jwt.Parse` fails on a malformed token, on an
algorithm that is not HMAC (the key function refuses it), on a signature that does not
verify under `secret` and on invalid time claims. -/
def ValidateJWT (now : Time) (tokenString : TokenString) (secret : String) :
    Except String Claims :=
  match tokenString with
  | .malformed => .error "failed to parse token: token is malformed"
  | .compact alg claims key =>
    if !(["HS256", "HS384", "HS512"].contains alg) then
      .error "failed to parse token: unexpected signing method"
    else if key ≠ secret then .error "failed to parse token: signature is invalid"
    else if !(timeClaimsValid now claims) then
      .error "failed to parse token: token has invalid claims"
    else
      match claims.get "user_id" with
      | some (.string userID) =>
        let username := match claims.get "username" with
          | some (.string v) => v
          | _ => ""
        let role := match claims.get "role" with
          | some (.string v) => v
          | _ => ""
        .ok { UserID := userID, Username := username, Role := role }
      | _ => .error "invalid user_id in token"

/-- The struct `interfaces.TokenPair`. -/
structure TokenPair where
  AccessToken : TokenString
  RefreshToken : TokenString
  ExpiresIn : Int
  deriving Repr

/-- The fields of `authService` the token methods read; `jwtExpiry` in seconds. -/
structure AuthConfig where
  jwtSecret : String
  jwtExpiry : Int
  deriving DecidableEq, Repr

namespace authService

/-- `GenerateTokenPair`. The helpers `generateJWT` and `validateJWT` the service calls
are not declared among the sources; they are taken to be `utils.GenerateJWT` and
`utils.ValidateJWT`. -/
def GenerateTokenPair (s : AuthConfig) (now : Time) (userID : UUID) : Except String TokenPair :=
  match GenerateJWT now userID s.jwtSecret s.jwtExpiry with
  | .error e => .error ("failed to generate access token: " ++ e)
  | .ok accessToken =>
    match GenerateJWT now userID s.jwtSecret (s.jwtExpiry * 24) with
    | .error e => .error ("failed to generate refresh token: " ++ e)
    | .ok refreshToken =>
      .ok { AccessToken := accessToken, RefreshToken := refreshToken, ExpiresIn := s.jwtExpiry }

/-- `ValidateToken`. -/
def ValidateToken (s : AuthConfig) (now : Time) (token : TokenString) : Except String Claims :=
  ValidateJWT now token s.jwtSecret

end authService

/-- How a middleware ends: it answers with a status and an error text, or calls the next
handler with the request locals as they then are. -/
inductive MiddlewareResult where
  | respond (code : Nat) (error : String)
  | next (locals : GoMap)
  deriving Repr

def StatusUnauthorized : Nat := 401
def StatusForbidden : Nat := 403

/-- The call `strings.Split(s, " ")`, on the characters of `s`. -/
def splitOnSpace : List Char → List (List Char)
  | [] => [[]]
  | c :: cs =>
    if c = ' ' then [] :: splitOnSpace cs
    else
      match splitOnSpace cs with
      | [] => [[c]]
      | part :: parts => (c :: part) :: parts

/-- The handler `JWTAuth` returns. `ValidateToken` is the method of the `AuthService`
given; `authHeader` is `c.Get("Authorization")`, empty when the header is missing;
`locals` are the request locals on entry. -/
def JWTAuth (ValidateToken : String → Except String Claims) (authHeader : String)
    (locals : GoMap) : MiddlewareResult :=
  if authHeader = "" then .respond StatusUnauthorized "Authorization header required"
  else
    match splitOnSpace authHeader.data with
    | [scheme, token] =>
      if String.mk scheme ≠ "Bearer" then
        .respond StatusUnauthorized "Invalid authorization header format"
      else
        match ValidateToken (String.mk token) with
        | .error _ => .respond StatusUnauthorized "Invalid or expired token"
        | .ok claims =>
          .next (((locals.set "user_id" (GoValue.string claims.UserID)).set "username"
            (GoValue.string claims.Username)).set "role" (GoValue.string claims.Role))
    | _ => .respond StatusUnauthorized "Invalid authorization header format"

/-- The handler `RequireRole(requiredRole)` returns; `locals` are the request locals on
entry. -/
def RequireRole (requiredRole : String) (locals : GoMap) : MiddlewareResult :=
  match locals.get "role" with
  | none => .respond StatusForbidden "User role not found"
  | some GoValue.nil => .respond StatusForbidden "User role not found"
  | some (GoValue.string role) =>
    if role ≠ "admin" ∧ role ≠ requiredRole then
      .respond StatusForbidden "Insufficient permissions"
    else .next locals
  | some _ => .respond StatusForbidden "Invalid user role"

/-! ## Generating the tunnel configuration (`hysteria_manager.go`) -/

namespace HysteriaManagerImpl

/-- `EnableSalamander`, on the agent's configuration. -/
def EnableSalamander (password : String) (cfg : Hysteria2Config) : Hysteria2Config :=
  { cfg with SalamanderEnabled := true, SalamanderPassword := password }

/-- `DisableSalamander`. -/
def DisableSalamander (cfg : Hysteria2Config) : Hysteria2Config :=
  { cfg with SalamanderEnabled := false }

/-- `EnablePortHopping`. -/
def EnablePortHopping (startPort endPort interval : Int) (cfg : Hysteria2Config) :
    Hysteria2Config :=
  { cfg with PortHopping := true, HopStartPort := startPort, HopEndPort := endPort,
             HopInterval := interval }

/-- `DisablePortHopping`. -/
def DisablePortHopping (cfg : Hysteria2Config) : Hysteria2Config :=
  { cfg with PortHopping := false }

/-- `generateDefaultConfig`. -/
def generateDefaultConfig (cfg : Hysteria2Config) : GoMap :=
  [("listen", GoValue.string (":" ++ toString cfg.DefaultListenPort)),
   ("tls", GoValue.map
     [("cert", GoValue.string "/etc/hysteria/cert.pem"),
      ("key", GoValue.string "/etc/hysteria/key.pem")]),
   ("auth", GoValue.map
     [("type", GoValue.string cfg.AuthType),
      ("password", GoValue.string cfg.AuthPassword)]),
   ("bandwidth", GoValue.map
     [("up", GoValue.string (toString cfg.UpMbps ++ " mbps")),
      ("down", GoValue.string (toString cfg.DownMbps ++ " mbps"))])]

/-- The write `config[k] = v` on a map that may be nil. -/
def assign (config : Option GoMap) (k : String) (v : GoValue) : Outcome (Option GoMap) :=
  match config with
  | none => .panic nilMapPanic
  | some m => .ok (some (m.set k v))

/-- `applyConfigOptions`; the map is changed in place, so the map afterwards is the
result. -/
def applyConfigOptions (cfg : Hysteria2Config) (config : Option GoMap) :
    Outcome (Option GoMap) :=
  let afterObfs : Outcome (Option GoMap) :=
    if cfg.SalamanderEnabled then
      assign config "obfs" (GoValue.map
        [("type", GoValue.string "salamander"),
         ("password", GoValue.string cfg.SalamanderPassword)])
    else .ok config
  match afterObfs with
  | .ok config =>
    if cfg.PortHopping then
      assign config "hopping" (GoValue.map
        [("interval", GoValue.int cfg.HopInterval),
         ("start", GoValue.int cfg.HopStartPort),
         ("end", GoValue.int cfg.HopEndPort)])
    else .ok config
  | .error msg => .error msg
  | .panic msg => .panic msg

/-- The call `json.Unmarshal(data, &hysteriaConfig)` on the nil map `hysteriaConfig`,
given the value `decoded` the text denotes (or the syntax error): an object yields its
map, `null` leaves the map nil, any other value is an error. -/
def unmarshalMap (decoded : Except String GoValue) : Except String (Option GoMap) :=
  match decoded with
  | .error e => .error e
  | .ok (GoValue.map fields) => .ok (some fields)
  | .ok GoValue.nil => .ok none
  | .ok _ => .error "json: cannot unmarshal value into Go value of type map[string]interface {}"

/-- The map `GenerateConfig` marshals (lines 68-82): the template decoded, or the default
configuration, with the options applied. `jsonDecode` is the reading of a JSON text by
`encoding/json`. -/
def configMap (jsonDecode : String → Except String GoValue) (cfg : Hysteria2Config)
    (configTemplate : String) : Outcome (Option GoMap) :=
  let parsed : Except String (Option GoMap) :=
    if configTemplate ≠ "" then unmarshalMap (jsonDecode configTemplate)
    else .ok (some (generateDefaultConfig cfg))
  match parsed with
  | .error e => .error ("invalid config template: " ++ e)
  | .ok hysteriaConfig => applyConfigOptions cfg hysteriaConfig

/-- `GenerateConfig`. `jsonDecode` and `jsonMarshalIndent` are the reading and the
indented writing of JSON by `encoding/json`; a nil map is written as the value `null`. -/
def GenerateConfig (jsonDecode : String → Except String GoValue)
    (jsonMarshalIndent : GoValue → Except String String) (cfg : Hysteria2Config)
    (configTemplate : String) : Outcome String :=
  match configMap jsonDecode cfg configTemplate with
  | .error msg => .error msg
  | .panic msg => .panic msg
  | .ok hysteriaConfig =>
    let value := match hysteriaConfig with
      | none => GoValue.nil
      | some m => GoValue.map m
    match jsonMarshalIndent value with
    | .error e => .error ("failed to marshal config: " ++ e)
    | .ok configJSON => .ok configJSON

end HysteriaManagerImpl

/-! ## Refreshing a token (`auth_service.go`) -/

/-- `(s *authService) RefreshToken` at the instant `now`. `uuidParse` is the function
`uuid.Parse` (`none` for its error); `uuid.MustParse` panics where `uuid.Parse` fails. -/
def authService.RefreshToken (uuidParse : String → Option UUID) (s : AuthConfig) (now : Time)
    (refreshToken : TokenString) : Outcome TokenPair :=
  match ValidateJWT now refreshToken s.jwtSecret with
  | .error e => .error ("invalid refresh token: " ++ e)
  | .ok claims =>
    match uuidParse claims.UserID with
    | none => .panic ("uuid: Parse(" ++ claims.UserID ++ "): invalid UUID")
    | some userID =>
      match authService.GenerateTokenPair s now userID with
      | .error e => .error e
      | .ok pair => .ok pair

/-! ## Listing the network interfaces (`network_manager.go`) -/

/-- The call `strings.Split(s, sep)` for a separator of one character, on the characters
of `s`. -/
def splitOnChar (sep : Char) : List Char → List (List Char)
  | [] => [[]]
  | c :: cs =>
    if c = sep then [] :: splitOnChar sep cs
    else
      match splitOnChar sep cs with
      | [] => [[c]]
      | part :: parts => (c :: part) :: parts

/-- The call `strings.Contains(s, ": ")`. -/
def containsColonSpace : List Char → Bool
  | [] => false
  | c :: rest => (c == ':' && rest.head? == some ' ') || containsColonSpace rest

/-- The call `strings.Split(s, ": ")`: the text between the occurrences of the separator,
found from the left. -/
def splitOnColonSpace : List Char → List (List Char)
  | [] => [[]]
  | [c] => [[c]]
  | c :: d :: rest =>
    if c = ':' ∧ d = ' ' then [] :: splitOnColonSpace rest
    else
      match splitOnColonSpace (d :: rest) with
      | [] => [[c]]
      | part :: parts => (c :: part) :: parts

namespace NetworkManagerImpl

/-- The body of the loop of `GetNetworkInterfaces` (lines 81-89) for one line: the name
appended to `interfaces`, if any. -/
def interfaceOfLine (line : List Char) : Option String :=
  if containsColonSpace line then
    match splitOnColonSpace line with
    | _ :: second :: _ =>
      let ifaceName := trimSpace second
      if ifaceName ≠ [] ∧ ifaceName ≠ ['l', 'o'] then some (String.mk ifaceName) else none
    | _ => none
  else none

/-- `GetNetworkInterfaces`; `output` is what `ip link show` printed, or the error of
running it. -/
def GetNetworkInterfaces (output : Except String String) : Except String (List String) :=
  match output with
  | .error err => .error ("failed to get network interfaces: " ++ err)
  | .ok output =>
    let lines := splitOnChar '\n' output.data
    .ok (lines.foldl
      (fun interfaces line =>
        match interfaceOfLine line with
        | some ifaceName => interfaces ++ [ifaceName]
        | none => interfaces) [])

end NetworkManagerImpl

/-- A line of an `ip link show` listing: an interface header
`<index>: <name>: <flags...>`, or any other line. -/
inductive LinkLine where
  | header (index name flags : List Char)
  | other (text : List Char)
  deriving DecidableEq, Repr

/-- The text of a line. -/
def LinkLine.text : LinkLine → List Char
  | .header index name flags => index ++ ':' :: ' ' :: (name ++ ':' :: ' ' :: flags)
  | .other text => text

/-- The interface name a line announces. -/
def LinkLine.name? : LinkLine → Option String
  | .header _ name _ => some (String.mk name)
  | .other _ => none

/-- A listing line is as the statement on `GetNetworkInterfaces` assumes: in a header
neither the index nor the name contains ": ", and the name is a name (not empty, no
white space at either end); any other line contains no ": ". -/
def LinkLine.wellFormed : LinkLine → Bool
  | .header index name _ =>
    !containsColonSpace index && !containsColonSpace name && !name.isEmpty &&
      decide (trimSpace name = name)
  | .other text => !containsColonSpace text

/-! ## The placeholder operations of the agent (`node_manager_handler.go`,
`config_manager.go`) -/

/-- A response of the form `{Success, Message}`, as `AddUser`, `RemoveUser`, `UpdateUser`
and `RestartServer` return. -/
structure SuccessResponse where
  Success : Bool
  Message : String
  deriving DecidableEq, Repr

/-- The message `pb.MetricsResponse`; the sources set none of its fields. -/
structure MetricsResponse where
  deriving DecidableEq, Repr

/-- The message `pb.LogResponse`. -/
structure LogResponse where
  Success : Bool
  Logs : List String
  deriving DecidableEq, Repr

namespace NodeManagerHandler

/-- The agent's `AddUser` placeholder. -/
def AddUser (_ctx : Context) : Except RPCError SuccessResponse :=
  .ok { Success := false, Message := "Not implemented" }

/-- The agent's `RemoveUser` placeholder. -/
def RemoveUser (_ctx : Context) : Except RPCError SuccessResponse :=
  .ok { Success := false, Message := "Not implemented" }

/-- The agent's `UpdateUser` placeholder. -/
def UpdateUser (_ctx : Context) : Except RPCError SuccessResponse :=
  .ok { Success := false, Message := "Not implemented" }

/-- The agent's `GetMetrics` placeholder: the empty response and a nil error. -/
def GetMetrics (_ctx : Context) : Except RPCError MetricsResponse :=
  .ok {}

/-- The agent's `StreamMetrics` placeholder: the error `not implemented`. -/
def StreamMetrics : Option RPCError :=
  some (RPCError.Other "not implemented")

/-- The agent's `RestartServer` placeholder. -/
def RestartServer (_ctx : Context) : Except RPCError SuccessResponse :=
  .ok { Success := false, Message := "Not implemented" }

/-- The agent's `GetLogs` placeholder. -/
def GetLogs (_ctx : Context) : Except RPCError LogResponse :=
  .ok { Success := false, Logs := ["Not implemented"] }

end NodeManagerHandler

/-- `(cm *ConfigManagerImpl) UpdateConfig`: the request is logged and the nil error
returned, whatever the configuration (a nil map is `none`). -/
def ConfigManagerImpl.UpdateConfig (_config : Option GoMap) : Option String :=
  none

/-! ## Assignments -/

/-- The record `NodeAssignment` (relations omitted). -/
structure NodeAssignment where
  ID : UUID
  UserID : UUID
  NodeID : UUID
  AssignedAt : Time
  IsActive : Bool
  deriving DecidableEq, Repr

/-- Failures of the assignment operations (spec, section 7). -/
inductive AssignError where
  | NoCapacity
  | Conflict
  deriving DecidableEq, Repr

/-- The number of active assignments on a node. -/
def activeOnNode (nodeID : UUID) (asg : List NodeAssignment) : Nat :=
  (asg.filter (fun a => a.IsActive && a.NodeID == nodeID)).length

/-- The active assignments of a tenant. -/
def activeOf (tenant : UUID) (asg : List NodeAssignment) : List NodeAssignment :=
  asg.filter (fun a => a.IsActive && a.UserID == tenant)

/-- Modelled from the spec: node selection of `Assign` (the assignment repository and
service implementations are not among the sources; only the interface
`NodeAssignmentRepository` and the record are). Among the nodes with status online, the
one with the fewest active assignments, ties broken by node id (section 4.3). -/
def selectNode (nodes : NodeStore) (asg : List NodeAssignment) : Option VPSNode :=
  match nodes.filter (fun n => n.Status == NodeStatusOnline) with
  | [] => none
  | n :: ns =>
    some (ns.foldl
      (fun best m =>
        if activeOnNode m.ID asg < activeOnNode best.ID asg ∨
            (activeOnNode m.ID asg = activeOnNode best.ID asg ∧ m.ID < best.ID)
        then m else best) n)

/-- Modelled from the spec: deactivation of a tenant's active assignment (the
implementation is not among the sources). Assignments are deactivated, not deleted
(section 3). -/
def deactivate (tenant : UUID) (asg : List NodeAssignment) : List NodeAssignment :=
  asg.map (fun a => if a.UserID = tenant then { a with IsActive := false } else a)

/-- Modelled from the spec: `Assign(tenant id)` (the implementation is not among the
sources). Fails with `Conflict` on a duplicate active assignment (section 7) and with
`NoCapacity` when no node is eligible; otherwise creates an active assignment to the
selected node (section 4.3). `fresh` is the new record's id, `now` the assignment time. -/
def Assign (nodes : NodeStore) (fresh : UUID) (now : Time) (tenant : UUID)
    (asg : List NodeAssignment) : Option AssignError × List NodeAssignment :=
  if (activeOf tenant asg).isEmpty then
    match selectNode nodes asg with
    | none => (some AssignError.NoCapacity, asg)
    | some n =>
      (none, asg ++ [{ ID := fresh, UserID := tenant, NodeID := n.ID, AssignedAt := now,
                       IsActive := true }])
  else (some AssignError.Conflict, asg)

/-- Modelled from the spec: `Reassign(tenant id)` (the implementation is not among the
sources): deactivates the current active assignment, if any, and calls `Assign`
(section 4.3); when `Assign` fails the tenant is left unassigned. -/
def Reassign (nodes : NodeStore) (fresh : UUID) (now : Time) (tenant : UUID)
    (asg : List NodeAssignment) : Option AssignError × List NodeAssignment :=
  Assign nodes fresh now tenant (deactivate tenant asg)

/-- Modelled from the spec: `Unassign(tenant id)` (the implementation is not among the
sources): deactivates without reassigning (section 4.3). -/
def Unassign (tenant : UUID) (asg : List NodeAssignment) : List NodeAssignment :=
  deactivate tenant asg

/-- The assignment tables reachable from the empty one through `Assign`, `Reassign` and
`Unassign`, whatever the nodes known at each step. -/
inductive AssignReachable : List NodeAssignment → Prop where
  | init : AssignReachable []
  | assign (nodes : NodeStore) (fresh : UUID) (now : Time) (tenant : UUID)
      {asg : List NodeAssignment} :
      AssignReachable asg → AssignReachable (Assign nodes fresh now tenant asg).2
  | reassign (nodes : NodeStore) (fresh : UUID) (now : Time) (tenant : UUID)
      {asg : List NodeAssignment} :
      AssignReachable asg → AssignReachable (Reassign nodes fresh now tenant asg).2
  | unassign (tenant : UUID) {asg : List NodeAssignment} :
      AssignReachable asg → AssignReachable (Unassign tenant asg)

/-! ## Deployments -/

/-- The deployment statuses: the four constants `DeploymentStatus...` of `models.go` and
the `RolledBack` status of the spec (section 4.4), for which the sources define no
constant. -/
inductive DeploymentStatus where
  | Pending
  | Deploying
  | Success
  | Failed
  | RolledBack
  deriving DecidableEq, Repr

/-- The stored text of a status. -/
def DeploymentStatus.text : DeploymentStatus → String
  | .Pending => DeploymentStatusPending
  | .Deploying => DeploymentStatusDeploying
  | .Success => DeploymentStatusSuccess
  | .Failed => DeploymentStatusFailed
  | .RolledBack => "rolled_back"

/-- Modelled from the spec: the transitions of a deployment (no code among the sources
changes a deployment's status; only the interface `DeploymentRepository` and the record
are there). `Pending` (created) goes to `Deploying` (push in flight), which goes to
`Success` or `Failed`; `Success` may later go to `RolledBack` (section 4.4). -/
def DeploymentStatus.next : DeploymentStatus → List DeploymentStatus
  | .Pending => [.Deploying]
  | .Deploying => [.Success, .Failed]
  | .Success => [.RolledBack]
  | .Failed => []
  | .RolledBack => []

/-- Whether a deployment may change from status `a` to status `b`. -/
def canTransition (a b : DeploymentStatus) : Bool :=
  decide (b ∈ a.next)

/-- Whether each status of `rest` follows by a transition from the one before it,
starting from `a`. -/
def chainOK : DeploymentStatus → List DeploymentStatus → Bool
  | _, [] => true
  | a, b :: rest => canTransition a b && chainOK b rest

/-- Whether a list of statuses is the history of one deployment: it starts at `Pending`
(the status of a created deployment) and each status follows from the one before by a
transition. -/
def isHistory : List DeploymentStatus → Bool
  | [] => false
  | s :: rest => decide (s = DeploymentStatus.Pending) && chainOK s rest

/-! ## Reachable stores and the liveness window -/

/-- The stores reachable from the empty one through the repository's writing
operations. -/
inductive Reachable : NodeStore → Prop where
  | init : Reachable []
  | create (fresh : UUID) (now : Time) (node : VPSNode) {db : NodeStore} :
      Reachable db → Reachable (NodeRepository.Create fresh now node db).2
  | update (fresh : UUID) (now : Time) (node : VPSNode) {db : NodeStore} :
      Reachable db → Reachable (NodeRepository.Update fresh now node db).2
  | updateStatus (id : UUID) (status : String) {db : NodeStore} :
      Reachable db → Reachable (NodeRepository.UpdateStatus id status db).2
  | updateLastHeartbeat (id : UUID) (heartbeat : Time) {db : NodeStore} :
      Reachable db → Reachable (NodeRepository.UpdateLastHeartbeat id heartbeat db).2
  | delete (referenced : UUID → Bool) (id : UUID) {db : NodeStore} :
      Reachable db → Reachable (NodeRepository.Delete referenced id db).2

/-- Modelled from the spec: the liveness window (glossary: the maximum allowed gap since
the last heartbeat before a node is considered dead); the sources define no window and
no staleness check. A heartbeat is within the window at `now` when it is set and not
older than `window`. -/
def withinWindow (window now : Time) (heartbeat : Option Time) : Bool :=
  match heartbeat with
  | none => false
  | some h => decide (now ≤ h + window)

/-- The id and the status of every stored node, in store order. -/
def statusView (db : NodeStore) : List (UUID × String) :=
  db.map (fun n => (n.ID, n.Status))

/-- The store with the last heartbeat of every node replaced by `f` of the node. -/
def withHeartbeats (f : VPSNode → Option Time) (db : NodeStore) : NodeStore :=
  db.map (fun n => { n with LastHeartbeat := f n })

/-! ## Sample data -/

/-- A sample node. -/
def sampleNode : VPSNode :=
  { ID := 1, Name := "n1", Hostname := "n1.example.org", IPAddress := "10.0.0.1",
    Location := "", Country := "", GRPCPort := 50051, Status := "offline", Version := "",
    Capabilities := [], CreatedAt := some 0, LastHeartbeat := none, Metadata := [] }

/-- A sample create-node request. -/
def sampleRequest : CreateNodeRequest :=
  { Name := "n1", Hostname := "n1.example.org", IPAddress := "10.0.0.1", Location := "",
    Country := "", GRPCPort := 0, Capabilities := [], Metadata := [] }

/-- The store after registering the sample node, one heartbeat at instant 100 and an
explicit status change to online. -/
def staleOnlineStore : NodeStore :=
  (NodeRepository.UpdateStatus 1 NodeStatusOnline
    (NodeRepository.UpdateLastHeartbeat 1 100
      (NodeRepository.Create 1 0 (NodeHandler.newNode sampleRequest) []).2).2).2

/-- The store after registering the sample node, one heartbeat at the instant `heartbeat`
and an explicit status change to online. -/
def onlineStoreAfterHeartbeat (heartbeat : Time) : NodeStore :=
  (NodeRepository.UpdateStatus 1 NodeStatusOnline
    (NodeRepository.UpdateLastHeartbeat 1 heartbeat
      (NodeRepository.Create 1 0 (NodeHandler.newNode sampleRequest) []).2).2).2

/-- A sample agent configuration: systemd on, no obfuscation, no port hopping. -/
def sampleHysteria2Config : Hysteria2Config :=
  { EnableBBR := true, EnableSystemd := true, PortHopping := false, HopInterval := 30,
    HopStartPort := 10000, HopEndPort := 20000, SalamanderEnabled := false,
    SalamanderPassword := "", ObfsType := "", CustomConfig := "", ListenPorts := [],
    DefaultListenPort := 8080, AuthType := "password", AuthPassword := "secret",
    UpMbps := 100, DownMbps := 100 }

/-- A sample create-user request. -/
def sampleUserRequest : CreateUserRequest :=
  { Username := "alice", Email := "alice@example.org", Password := "correct horse battery",
    FullName := none, Role := "admin", DataLimit := 0, Notes := none }

/-- A sample service configuration: a signing key and a lifetime of one hour. -/
def sampleAuthConfig : AuthConfig :=
  { jwtSecret := "signing-key", jwtExpiry := 3600 }

/-- The `obfs` entry written for the password `p`. -/
def salamanderEntry (p : String) : GoValue :=
  GoValue.map [("type", GoValue.string "salamander"), ("password", GoValue.string p)]

/-- The `hopping` entry written for a configuration. -/
def hoppingEntry (cfg : Hysteria2Config) : GoValue :=
  GoValue.map
    [("interval", GoValue.int cfg.HopInterval), ("start", GoValue.int cfg.HopStartPort),
     ("end", GoValue.int cfg.HopEndPort)]

/-- The entries of a sample template: a listening address, an `obfs` entry and a `hopping`
entry of its own. -/
def sampleTemplateFields : GoMap :=
  [("listen", GoValue.string ":443"),
   ("obfs", GoValue.map [("type", GoValue.string "none")]),
   ("hopping", GoValue.string "keep")]

/-- The text of the sample template. -/
def sampleTemplate : String :=
  "\x7b\"listen\": \":443\", \"obfs\": \x7b\"type\": \"none\"\x7d, \"hopping\": \"keep\"\x7d"

/-- A JSON reader that knows the text of the sample template only. -/
def readSampleTemplate : String → Except String GoValue :=
  fun text =>
    if text = sampleTemplate then .ok (GoValue.map sampleTemplateFields)
    else .error "invalid character"

/-- A JSON writer for sample evaluations: on one line, the entries in map order, texts
between quotes as they are; a `float64` and whatever is nested deeper than `depth` are
written `null`. -/
def writeJSON : Nat → GoValue → String
  | 0, _ => "null"
  | _ + 1, GoValue.nil => "null"
  | _ + 1, GoValue.bool b => if b then "true" else "false"
  | _ + 1, GoValue.string s => "\"" ++ s ++ "\""
  | _ + 1, GoValue.int n => toString n
  | _ + 1, GoValue.int64 n => toString n
  | _ + 1, GoValue.uint32 n => toString n
  | _ + 1, GoValue.uint64 n => toString n
  | _ + 1, GoValue.float64 _ => "null"
  | depth + 1, GoValue.slice vs =>
    "[" ++ ", ".intercalate (vs.map (writeJSON depth)) ++ "]"
  | depth + 1, GoValue.map fields =>
    "\x7b" ++ ", ".intercalate
      (fields.map (fun e => "\"" ++ e.1 ++ "\": " ++ writeJSON depth e.2)) ++ "\x7d"

/-- The sample writer as a stand-in for `json.MarshalIndent`. -/
def writeSample : GoValue → Except String String :=
  fun v => .ok (writeJSON 3 v)

/-- A stand-in for the key derivation, for sample evaluations: 32 zero bytes whatever
the input. -/
def zeroKDF : Argon2 :=
  fun _ _ _ _ _ _ => List.replicate 32 0

/-- A JSON reader that knows the text `null` only. -/
def decodeNull : String → Except String GoValue :=
  fun text => if text = "null" then .ok GoValue.nil else .error "invalid character"

/-- A sample `ip link show` listing: the loopback and one Ethernet interface. -/
def sampleListing : List LinkLine :=
  [LinkLine.header "1".data "lo".data "<LOOPBACK,UP,LOWER_UP> mtu 65536".data,
   LinkLine.other "    link/loopback 00:00:00:00:00:00 brd 00:00:00:00:00:00".data,
   LinkLine.header "2".data "eth0".data "<BROADCAST,MULTICAST,UP> mtu 1500".data,
   LinkLine.other "    link/ether 52:54:00:12:34:56 brd ff:ff:ff:ff:ff:ff".data,
   LinkLine.other []]

/-- The text of the sample listing. -/
def sampleListingOutput : String :=
  "1: lo: <LOOPBACK,UP,LOWER_UP> mtu 65536\n" ++
  "    link/loopback 00:00:00:00:00:00 brd 00:00:00:00:00:00\n" ++
  "2: eth0: <BROADCAST,MULTICAST,UP> mtu 1500\n" ++
  "    link/ether 52:54:00:12:34:56 brd ff:ff:ff:ff:ff:ff\n"

/-- A stand-in for `uuid.Parse` that knows the text of the UUID 42 only. -/
def parseUUID42 : String → Option UUID :=
  fun text => if text = UUID.String 42 then some 42 else none

/-! ## Helper lemmas on the store -/

theorem applyDefaults_ID (now : Time) (v : VPSNode) : (applyDefaults now v).ID = v.ID := rfl

theorem applyDefaults_IPAddress (now : Time) (v : VPSNode) :
    (applyDefaults now v).IPAddress = v.IPAddress := rfl

theorem BeforeCreate_IPAddress (fresh : UUID) (v : VPSNode) :
    (v.BeforeCreate fresh).IPAddress = v.IPAddress := by
  unfold VPSNode.BeforeCreate
  split <;> rfl

theorem any_ID_false {db : NodeStore} {id : UUID} (h : ∀ n ∈ db, n.ID ≠ id) :
    db.any (fun n => n.ID == id) = false := by
  rw [List.any_eq_false]
  intro n hn
  simpa using h n hn

theorem fitColumn_of_le {size : Nat} {s : String} (h : s.length ≤ size) :
    fitColumn size s = some s := by
  unfold fitColumn
  rw [if_pos h]

theorem fitColumns_of_fits {v : VPSNode} (h : v.fits = true) : fitColumns v = some v := by
  simp only [VPSNode.fits, Bool.and_eq_true, decide_eq_true_eq] at h
  obtain ⟨⟨⟨⟨⟨⟨h1, h2⟩, h3⟩, h4⟩, h5⟩, h6⟩, h7⟩ := h
  simp [fitColumns, fitTexts, fitColumn_of_le h1, fitColumn_of_le h2, fitColumn_of_le h3,
    fitColumn_of_le h4, fitColumn_of_le h5, fitColumn_of_le h6, fitColumn_of_le h7]

theorem fitColumns_ID {v row : VPSNode} (h : fitColumns v = some row) : row.ID = v.ID := by
  unfold fitColumns at h
  cases ht : fitTexts v with
  | none => simp [ht] at h
  | some t =>
    rw [ht] at h
    rw [← Option.some.inj h]

theorem fitColumns_LastHeartbeat {v row : VPSNode} (h : fitColumns v = some row) :
    row.LastHeartbeat = v.LastHeartbeat := by
  unfold fitColumns at h
  cases ht : fitTexts v with
  | none => simp [ht] at h
  | some t =>
    rw [ht] at h
    rw [← Option.some.inj h]

theorem fitColumns_Status {v row : VPSNode} (h : fitColumns v = some row) :
    fitColumn 20 v.Status = some row.Status := by
  unfold fitColumns at h
  cases ht : fitTexts v with
  | none => simp [ht] at h
  | some t =>
    rw [ht] at h
    rw [← Option.some.inj h]
    simp only [fitTexts, Option.bind_eq_bind, Option.bind_eq_some, Option.pure_def,
      Option.some.injEq] at ht
    obtain ⟨_, _, _, _, _, _, _, _, _, _, st, hst, _, _, ht⟩ := ht
    rw [← ht]
    exact hst

theorem insertRow_fresh {db : NodeStore} {v : VPSNode} (h : ∀ n ∈ db, n.ID ≠ v.ID)
    (hfit : v.fits = true) :
    insertRow v db = (none, db ++ [v]) := by
  unfold insertRow
  rw [fitColumns_of_fits hfit]
  dsimp only
  rw [any_ID_false h]
  rfl

theorem fits_applyDefaults (now : Time) {v : VPSNode} (h : v.fits = true) :
    (applyDefaults now v).fits = true := by
  simp only [VPSNode.fits, applyDefaults, Bool.and_eq_true, decide_eq_true_eq] at h ⊢
  obtain ⟨⟨⟨⟨⟨⟨h1, h2⟩, h3⟩, h4⟩, h5⟩, h6⟩, h7⟩ := h
  refine ⟨⟨⟨⟨⟨⟨h1, h2⟩, h3⟩, h4⟩, h5⟩, ?_⟩, h7⟩
  split
  · decide
  · exact h6

theorem fits_BeforeCreate (fresh : UUID) {v : VPSNode} (h : v.fits = true) :
    (v.BeforeCreate fresh).fits = true := by
  unfold VPSNode.BeforeCreate
  split
  · exact h
  · exact h

theorem map_ite_absent {db : NodeStore} {id : UUID} (f : VPSNode → VPSNode)
    (h : ∀ n ∈ db, n.ID ≠ id) :
    db.map (fun n => if n.ID = id then f n else n) = db := by
  induction db with
  | nil => rfl
  | cons a as ih =>
    have ha : a.ID ≠ id := h a (List.mem_cons_self a as)
    have hs : ∀ n ∈ as, n.ID ≠ id := fun n hn => h n (List.mem_cons_of_mem a hn)
    simp [ha, ih hs]

/-! ## Heartbeats for unknown nodes (C1) -/

/-- C1, counterexample: the store holds only node 1; recording a heartbeat for the absent
id 2 returns a nil error (not a not-found error), with the store unchanged. -/
theorem c1_absent_id_reports_success :
    (∀ n ∈ [sampleNode], n.ID ≠ 2) ∧
    NodeRepository.UpdateLastHeartbeat 2 500 [sampleNode] = (none, [sampleNode]) := by
  decide

/-- C1, amended: `UpdateLastHeartbeat` returns a nil error for every id, and for an id
that no stored node has it leaves the store unchanged. -/
theorem c1_heartbeat_absent_id_noop (db : NodeStore) (id : UUID) (heartbeat : Time) :
    (NodeRepository.UpdateLastHeartbeat id heartbeat db).1 = none ∧
    ((∀ n ∈ db, n.ID ≠ id) →
      (NodeRepository.UpdateLastHeartbeat id heartbeat db).2 = db) := by
  refine ⟨rfl, fun h => ?_⟩
  exact map_ite_absent (fun n => { n with LastHeartbeat := some heartbeat }) h

/-- C1, witness: the amended statement at the store holding node 1 and the id 2. -/
theorem c1_heartbeat_absent_id_noop_witness :
    (∀ n ∈ [sampleNode], n.ID ≠ 2) ∧
    (NodeRepository.UpdateLastHeartbeat 2 500 [sampleNode]).2 = [sampleNode] :=
  ⟨by decide, (c1_heartbeat_absent_id_noop [sampleNode] 2 500).2 (by decide)⟩

/-! ## The record of a newly created node (C2) -/

/-- C2, counterexample: registering the sample descriptor at instant 1000 stores one
record whose status is offline (not online) and whose last heartbeat is unset (not
1000). -/
theorem c2_created_node_is_offline :
    ∃ row, (NodeHandler.CreateNode (repoNodeService 1 1000) (some sampleRequest) []).2 = [row] ∧
      row.Status ≠ NodeStatusOnline ∧ row.LastHeartbeat ≠ some 1000 :=
  ⟨{ sampleNode with CreatedAt := some 1000 }, by decide, by decide, by decide⟩

/-- C2, amended: the record `CreateNode` builds has status offline and no last heartbeat,
and so has the row `NodeRepository.Create` inserts for it: the store is either left as
it was (the insert was refused) or extended by one row with status offline and no last
heartbeat. -/
theorem c2_created_node_offline_no_heartbeat (req : CreateNodeRequest) (fresh : UUID)
    (now : Time) (db : NodeStore) :
    (NodeHandler.newNode req).Status = NodeStatusOffline ∧
    (NodeHandler.newNode req).LastHeartbeat = none ∧
    ((NodeRepository.Create fresh now (NodeHandler.newNode req) db).2 = db ∨
      ∃ row, (NodeRepository.Create fresh now (NodeHandler.newNode req) db).2 = db ++ [row] ∧
        row.Status = NodeStatusOffline ∧ row.LastHeartbeat = none) := by
  refine ⟨rfl, rfl, ?_⟩
  unfold NodeRepository.Create dbCreate insertRow
  dsimp only
  cases hrow : fitColumns (applyDefaults now ((NodeHandler.newNode req).BeforeCreate fresh)) with
  | none => exact Or.inl rfl
  | some row =>
    dsimp only
    split
    · exact Or.inl rfl
    · refine Or.inr ⟨row, rfl, ?_, ?_⟩
      · have hst := fitColumns_Status hrow
        have hoff : (applyDefaults now ((NodeHandler.newNode req).BeforeCreate fresh)).Status
            = "offline" := by
          simp [applyDefaults, VPSNode.BeforeCreate, NodeHandler.newNode, uuid.Nil]
        rw [hoff, fitColumn_of_le (by decide)] at hst
        exact (Option.some.inj hst).symm
      · rw [fitColumns_LastHeartbeat hrow]
        simp [applyDefaults, VPSNode.BeforeCreate, NodeHandler.newNode, uuid.Nil]

/-! ## Registering an address twice (C3) -/

/-- C3, counterexample: registering the sample descriptor twice (fresh ids 1 and 2)
leaves two records, both with the address 10.0.0.1; the second `Create` added a
record. -/
theorem c3_second_create_adds_record :
    (NodeRepository.Create 2 0 (NodeHandler.newNode sampleRequest)
      (NodeRepository.Create 1 0 (NodeHandler.newNode sampleRequest) []).2).2.length = 2 ∧
    ((NodeRepository.Create 2 0 (NodeHandler.newNode sampleRequest)
      (NodeRepository.Create 1 0 (NodeHandler.newNode sampleRequest) []).2).2.filter
        (fun n => n.IPAddress == "10.0.0.1")).length = 2 := by
  decide

/-- A country code of three characters does not fit its column (`size:2`): the INSERT is
refused and the store is unchanged. -/
theorem Create_country_too_long :
    NodeRepository.Create 2 0 { sampleNode with ID := 0, Country := "USA" } [sampleNode]
      = (some DBError.ErrValueTooLong, [sampleNode]) := by
  decide

/-- C3, amended: `Create` does not look at the address. Whenever the primary key of the
new record is not in the store and its texts fit their columns, `Create` succeeds and
appends one record, so that the number of records with the new record's address grows by
one, whether or not the address was already stored. -/
theorem c3_create_appends_whatever_address (db : NodeStore) (node : VPSNode) (fresh : UUID)
    (now : Time) (h : ∀ n ∈ db, n.ID ≠ (node.BeforeCreate fresh).ID)
    (hfit : node.fits = true) :
    (NodeRepository.Create fresh now node db).1 = none ∧
    (NodeRepository.Create fresh now node db).2.length = db.length + 1 ∧
    ((NodeRepository.Create fresh now node db).2.filter
        (fun n => n.IPAddress == node.IPAddress)).length
      = (db.filter (fun n => n.IPAddress == node.IPAddress)).length + 1 := by
  have hins : insertRow (applyDefaults now (node.BeforeCreate fresh)) db
      = (none, db ++ [applyDefaults now (node.BeforeCreate fresh)]) :=
    insertRow_fresh (by simpa [applyDefaults_ID] using h)
      (fits_applyDefaults now (fits_BeforeCreate fresh hfit))
  have hip : (applyDefaults now (node.BeforeCreate fresh)).IPAddress = node.IPAddress := by
    rw [applyDefaults_IPAddress, BeforeCreate_IPAddress]
  unfold NodeRepository.Create dbCreate
  dsimp only
  rw [hins]
  refine ⟨rfl, by simp, ?_⟩
  simp [List.filter_append, hip]

/-- C3, witness: the amended statement at the store that already holds the sample
address. -/
theorem c3_create_appends_whatever_address_witness :
    (∀ n ∈ [sampleNode], n.ID ≠ ((NodeHandler.newNode sampleRequest).BeforeCreate 2).ID) ∧
    (NodeHandler.newNode sampleRequest).fits = true ∧
    (NodeRepository.Create 2 0 (NodeHandler.newNode sampleRequest) [sampleNode]).1 = none ∧
    ((NodeRepository.Create 2 0 (NodeHandler.newNode sampleRequest) [sampleNode]).2.filter
        (fun n => n.IPAddress == (NodeHandler.newNode sampleRequest).IPAddress)).length
      = ([sampleNode].filter
        (fun n => n.IPAddress == (NodeHandler.newNode sampleRequest).IPAddress)).length + 1 :=
  ⟨by decide, by decide,
    (c3_create_appends_whatever_address [sampleNode] (NodeHandler.newNode sampleRequest) 2 0
      (by decide) (by decide)).1,
    (c3_create_appends_whatever_address [sampleNode] (NodeHandler.newNode sampleRequest) 2 0
      (by decide) (by decide)).2.2⟩

/-! ## Status and heartbeat age (C4) -/

/-- C4, counterexample: the store reached by registering the sample node, recording one
heartbeat at instant 100 and setting the status to online holds an online node that
`GetOnlineNodes` returns although, at instant 100000 and with a window of 60, its
heartbeat is older than the window. -/
theorem c4_online_node_with_stale_heartbeat :
    Reachable staleOnlineStore ∧
    ∃ n ∈ (NodeRepository.GetOnlineNodes staleOnlineStore).2,
      n.Status = NodeStatusOnline ∧ withinWindow 60 100000 n.LastHeartbeat = false :=
  ⟨Reachable.updateStatus 1 NodeStatusOnline
      (Reachable.updateLastHeartbeat 1 100
        (Reachable.create 1 0 (NodeHandler.newNode sampleRequest) Reachable.init)),
    { sampleNode with Status := "online", LastHeartbeat := some 100 },
    by decide, by decide, by decide⟩

theorem statusView_withHeartbeats (f : VPSNode → Option Time) (db : NodeStore) :
    statusView (withHeartbeats f db) = statusView db := by
  simp [statusView, withHeartbeats, List.map_map, Function.comp_def]

theorem any_ID_statusView {db db2 : NodeStore} (h : statusView db = statusView db2)
    (id : UUID) :
    db.any (fun n => n.ID == id) = db2.any (fun n => n.ID == id) := by
  have e : ∀ d : NodeStore,
      d.any (fun n => n.ID == id) = (statusView d).any (fun q => q.1 == id) := by
    intro d
    induction d with
    | nil => rfl
    | cons a as ih =>
      simp only [statusView, List.map_cons, List.any_cons] at ih ⊢
      rw [ih]
  rw [e, e, h]

theorem statusView_replace (db : NodeStore) (id : UUID) (row : VPSNode) :
    statusView (db.map (fun n => if n.ID = id then row else n))
      = (statusView db).map (fun q => if q.1 = id then (row.ID, row.Status) else q) := by
  simp only [statusView, List.map_map]
  apply List.map_congr_left
  intro n _
  by_cases hn : n.ID = id <;> simp [hn]

theorem statusView_setStatus (db : NodeStore) (id : UUID) (st : String) :
    statusView (db.map (fun n => if n.ID = id then { n with Status := st } else n))
      = (statusView db).map (fun q => if q.1 = id then (q.1, st) else q) := by
  simp only [statusView, List.map_map]
  apply List.map_congr_left
  intro n _
  by_cases hn : n.ID = id <;> simp [hn]

theorem statusView_filter (db : NodeStore) (keep : UUID × String → Bool) :
    statusView (db.filter (fun n => keep (n.ID, n.Status)))
      = (statusView db).filter keep := by
  simp only [statusView, List.filter_map]
  rfl

theorem insertRow_statusView {a b : VPSNode} {db db2 : NodeStore} (hid : a.ID = b.ID)
    (ht : fitTexts a = fitTexts b) (hv : statusView db = statusView db2) :
    (insertRow a db).1 = (insertRow b db2).1 ∧
    statusView (insertRow a db).2 = statusView (insertRow b db2).2 := by
  unfold insertRow fitColumns
  rw [ht]
  cases fitTexts b with
  | none => exact ⟨rfl, hv⟩
  | some t =>
    dsimp only [Option.map]
    rw [any_ID_statusView hv, hid]
    split
    · exact ⟨rfl, hv⟩
    · refine ⟨rfl, ?_⟩
      simp only [statusView, List.map_append, List.map_cons, List.map_nil] at hv ⊢
      rw [hv]

theorem dbSave_statusView (fresh : UUID) (now : Time) (node : VPSNode) (hb : Option Time)
    {db db2 : NodeStore} (hv : statusView db = statusView db2) :
    (dbSave fresh now { node with LastHeartbeat := hb } db).1 = (dbSave fresh now node db2).1 ∧
    statusView (dbSave fresh now { node with LastHeartbeat := hb } db).2
      = statusView (dbSave fresh now node db2).2 := by
  unfold dbSave dbCreate
  dsimp only
  by_cases hnil : node.ID = uuid.Nil
  · rw [if_pos hnil, if_pos hnil]
    apply insertRow_statusView _ _ hv
    · simp [VPSNode.BeforeCreate, hnil, applyDefaults]
    · simp [VPSNode.BeforeCreate, hnil, applyDefaults, fitTexts]
  · rw [if_neg hnil, if_neg hnil, any_ID_statusView hv]
    split
    · unfold fitColumns
      have ht : fitTexts { node with LastHeartbeat := hb } = fitTexts node := rfl
      rw [ht]
      cases fitTexts node with
      | none => exact ⟨rfl, hv⟩
      | some t =>
        dsimp only [Option.map]
        refine ⟨rfl, ?_⟩
        rw [statusView_replace, statusView_replace, hv]
    · exact insertRow_statusView rfl rfl hv

/-- C4, amended: the repository does not relate status to heartbeat age. For every
instant `heartbeat` the store reached by registering a node, recording that heartbeat and
setting the status to online holds an online node with that heartbeat, which
`GetOnlineNodes` returns; at every evaluation time later than `heartbeat + window` it is
older than the window. The ids and statuses `GetOnlineNodes` returns, and the error and
the ids and statuses each of `Create`, `Update`, `UpdateStatus`, `UpdateLastHeartbeat` and
`Delete` leaves, are the same whatever last heartbeats the store holds (`f` replaces them)
and whatever last heartbeat (`hb`) the record written carries. `UpdateLastHeartbeat`
leaves every status as it was, `UpdateStatus` leaves every last heartbeat as it was, and
`Delete` leaves only records that were stored. -/
theorem c4_status_independent_of_heartbeat (db : NodeStore) (f : VPSNode → Option Time)
    (hb : Option Time) (referenced : UUID → Bool) (fresh : UUID) (now : Time)
    (node : VPSNode) (id : UUID) (status : String) (heartbeat window evaluation : Time)
    (hstale : heartbeat + window < evaluation) :
    (Reachable (onlineStoreAfterHeartbeat heartbeat) ∧
      ∃ n ∈ (NodeRepository.GetOnlineNodes (onlineStoreAfterHeartbeat heartbeat)).2,
        n.Status = NodeStatusOnline ∧ n.LastHeartbeat = some heartbeat ∧
        withinWindow window evaluation n.LastHeartbeat = false) ∧
    statusView (NodeRepository.GetOnlineNodes (withHeartbeats f db)).2
      = statusView (NodeRepository.GetOnlineNodes db).2 ∧
    ((NodeRepository.Create fresh now { node with LastHeartbeat := hb }
          (withHeartbeats f db)).1
        = (NodeRepository.Create fresh now node db).1 ∧
      statusView (NodeRepository.Create fresh now { node with LastHeartbeat := hb }
          (withHeartbeats f db)).2
        = statusView (NodeRepository.Create fresh now node db).2) ∧
    ((NodeRepository.Update fresh now { node with LastHeartbeat := hb }
          (withHeartbeats f db)).1
        = (NodeRepository.Update fresh now node db).1 ∧
      statusView (NodeRepository.Update fresh now { node with LastHeartbeat := hb }
          (withHeartbeats f db)).2
        = statusView (NodeRepository.Update fresh now node db).2) ∧
    ((NodeRepository.UpdateStatus id status (withHeartbeats f db)).1
        = (NodeRepository.UpdateStatus id status db).1 ∧
      statusView (NodeRepository.UpdateStatus id status (withHeartbeats f db)).2
        = statusView (NodeRepository.UpdateStatus id status db).2) ∧
    ((NodeRepository.UpdateLastHeartbeat id heartbeat (withHeartbeats f db)).1
        = (NodeRepository.UpdateLastHeartbeat id heartbeat db).1 ∧
      statusView (NodeRepository.UpdateLastHeartbeat id heartbeat (withHeartbeats f db)).2
        = statusView (NodeRepository.UpdateLastHeartbeat id heartbeat db).2) ∧
    ((NodeRepository.Delete referenced id (withHeartbeats f db)).1
        = (NodeRepository.Delete referenced id db).1 ∧
      statusView (NodeRepository.Delete referenced id (withHeartbeats f db)).2
        = statusView (NodeRepository.Delete referenced id db).2) ∧
    statusView (NodeRepository.UpdateLastHeartbeat id heartbeat db).2 = statusView db ∧
    (NodeRepository.UpdateStatus id status db).2.map (fun n => n.LastHeartbeat)
      = db.map (fun n => n.LastHeartbeat) ∧
    (∀ n ∈ (NodeRepository.Delete referenced id db).2, n ∈ db) := by
  have hv := statusView_withHeartbeats f db
  have hkeep : ∀ d : NodeStore,
      statusView (NodeRepository.UpdateLastHeartbeat id heartbeat d).2 = statusView d := by
    intro d
    simp only [NodeRepository.UpdateLastHeartbeat, statusView, List.map_map]
    apply List.map_congr_left
    intro n _
    by_cases hn : n.ID = id <;> simp [hn]
  have hfil : ∀ (d : NodeStore) (keep : UUID × String → Bool),
      statusView (d.filter (fun n => keep (n.ID, n.Status))) = (statusView d).filter keep :=
    fun d keep => statusView_filter d keep
  refine ⟨⟨?_, ?_⟩, ?_, ?_, ?_, ?_, ?_, ?_, ?_, ?_, ?_⟩
  · exact Reachable.updateStatus 1 NodeStatusOnline
      (Reachable.updateLastHeartbeat 1 heartbeat
        (Reachable.create 1 0 (NodeHandler.newNode sampleRequest) Reachable.init))
  · refine ⟨{ sampleNode with Status := "online", LastHeartbeat := some heartbeat },
      ?_, rfl, rfl, ?_⟩
    · have hs : onlineStoreAfterHeartbeat heartbeat
          = [{ sampleNode with Status := "online", LastHeartbeat := some heartbeat }] := rfl
      rw [hs]
      simp [NodeRepository.GetOnlineNodes, NodeStatusOnline]
    · simp only [withinWindow, decide_eq_false_iff_not, not_le]
      exact hstale
  · exact (hfil (withHeartbeats f db) (fun q => q.2 == NodeStatusOnline)).trans
      ((congrArg (List.filter fun q => q.2 == NodeStatusOnline) hv).trans
        (hfil db (fun q => q.2 == NodeStatusOnline)).symm)
  · unfold NodeRepository.Create dbCreate
    dsimp only
    apply insertRow_statusView _ _ hv
    · unfold VPSNode.BeforeCreate
      dsimp only
      split <;> rfl
    · unfold VPSNode.BeforeCreate
      dsimp only
      split <;> rfl
  · exact dbSave_statusView fresh now node hb hv
  · unfold NodeRepository.UpdateStatus
    cases fitColumn 20 status with
    | none => exact ⟨rfl, hv⟩
    | some st =>
      dsimp only
      refine ⟨rfl, ?_⟩
      rw [statusView_setStatus, statusView_setStatus, hv]
  · exact ⟨rfl, ((hkeep (withHeartbeats f db)).trans hv).trans (hkeep db).symm⟩
  · unfold NodeRepository.Delete
    rw [any_ID_statusView hv]
    split
    · exact ⟨rfl, hv⟩
    · refine ⟨rfl, ?_⟩
      exact (hfil (withHeartbeats f db) (fun q => !(q.1 == id))).trans
        ((congrArg (List.filter fun q => !(q.1 == id)) hv).trans
          (hfil db (fun q => !(q.1 == id))).symm)
  · exact hkeep db
  · unfold NodeRepository.UpdateStatus
    cases fitColumn 20 status with
    | none => rfl
    | some st =>
      simp only [List.map_map]
      apply List.map_congr_left
      intro n _
      by_cases hn : n.ID = id <;> simp [hn]
  · intro n hn
    unfold NodeRepository.Delete at hn
    split at hn
    · exact hn
    · exact (List.mem_filter.mp hn).1

/-- C4, witness: the amended statement at a node whose last heartbeat, 100, is older than
the window of 60 at the evaluation time 100000. -/
theorem c4_status_independent_of_heartbeat_witness :
    100 + 60 < 100000 ∧
    Reachable (onlineStoreAfterHeartbeat 100) ∧
    (∃ n ∈ (NodeRepository.GetOnlineNodes (onlineStoreAfterHeartbeat 100)).2,
      n.Status = NodeStatusOnline ∧ n.LastHeartbeat = some 100 ∧
      withinWindow 60 100000 n.LastHeartbeat = false) ∧
    statusView (NodeRepository.GetOnlineNodes
        (withHeartbeats (fun _ => some 99999) (onlineStoreAfterHeartbeat 100))).2
      = statusView (NodeRepository.GetOnlineNodes (onlineStoreAfterHeartbeat 100)).2 :=
  ⟨by decide,
    (c4_status_independent_of_heartbeat (onlineStoreAfterHeartbeat 100)
      (fun _ => some 99999) none (fun _ => false) 2 0 sampleNode 1 NodeStatusOffline
      100 60 100000 (by decide)).1.1,
    (c4_status_independent_of_heartbeat (onlineStoreAfterHeartbeat 100)
      (fun _ => some 99999) none (fun _ => false) 2 0 sampleNode 1 NodeStatusOffline
      100 60 100000 (by decide)).1.2,
    (c4_status_independent_of_heartbeat (onlineStoreAfterHeartbeat 100)
      (fun _ => some 99999) none (fun _ => false) 2 0 sampleNode 1 NodeStatusOffline
      100 60 100000 (by decide)).2.1⟩

/-! ## The nodes eligible for assignment (C5) -/

/-- C5: `GetOnlineNodes` returns, without error, exactly the stored nodes whose status is
online, in store order: a node is returned if and only if it is stored and `IsOnline`
holds for it, and no node in maintenance, error or offline is returned. -/
theorem c5_online_nodes_exact (db : NodeStore) (n : VPSNode) :
    (NodeRepository.GetOnlineNodes db).1 = none ∧
    (NodeRepository.GetOnlineNodes db).2 = db.filter VPSNode.IsOnline ∧
    (n ∈ (NodeRepository.GetOnlineNodes db).2 ↔ n ∈ db ∧ n.IsOnline = true) ∧
    (n ∈ (NodeRepository.GetOnlineNodes db).2 ↔ n ∈ db ∧ n.Status = NodeStatusOnline) ∧
    (n.Status = NodeStatusMaintenance ∨ n.Status = NodeStatusError ∨
        n.Status = NodeStatusOffline → n ∉ (NodeRepository.GetOnlineNodes db).2) := by
  refine ⟨rfl, rfl, ?_, ?_, ?_⟩
  · simp [NodeRepository.GetOnlineNodes, VPSNode.IsOnline, NodeStatusOnline, List.mem_filter]
  · simp [NodeRepository.GetOnlineNodes, List.mem_filter]
  · intro h hmem
    simp only [NodeRepository.GetOnlineNodes, List.mem_filter, beq_iff_eq] at hmem
    rcases h with h | h | h <;> rw [hmem.2] at h <;> revert h <;> decide

/-- C5, witness: a store with an online node and a node in maintenance; the first is
returned, the second is not. -/
theorem c5_online_nodes_exact_witness :
    ({ sampleNode with ID := 2, Status := "maintenance" } : VPSNode).Status
        = NodeStatusMaintenance ∧
    ({ sampleNode with ID := 2, Status := "maintenance" } : VPSNode) ∉
      (NodeRepository.GetOnlineNodes
        [{ sampleNode with Status := "online" },
         { sampleNode with ID := 2, Status := "maintenance" }]).2 :=
  ⟨by decide,
    (c5_online_nodes_exact
      [{ sampleNode with Status := "online" },
       { sampleNode with ID := 2, Status := "maintenance" }]
      { sampleNode with ID := 2, Status := "maintenance" }).2.2.2.2 (Or.inl (by decide))⟩

/-! ## One active assignment per tenant (C6) -/

theorem activeOf_deactivate_self (tenant : UUID) (asg : List NodeAssignment) :
    activeOf tenant (deactivate tenant asg) = [] := by
  unfold activeOf deactivate
  rw [List.filter_eq_nil_iff]
  intro a ha
  rw [List.mem_map] at ha
  obtain ⟨b, _, rfl⟩ := ha
  by_cases hb : b.UserID = tenant <;> simp [hb]

theorem activeOf_deactivate_length_le (tenant t : UUID) (asg : List NodeAssignment) :
    (activeOf t (deactivate tenant asg)).length ≤ (activeOf t asg).length := by
  unfold activeOf deactivate
  induction asg with
  | nil => simp
  | cons a as ih =>
    by_cases ha : a.UserID = tenant
    · by_cases hb : (a.IsActive && a.UserID == t) = true
      · simp only [List.map_cons, ha, if_true, List.filter_cons, Bool.false_and]
        rw [ha] at hb
        simp only [hb, if_true, List.length_cons]
        exact Nat.le_succ_of_le ih
      · simp only [List.map_cons, ha, if_true, List.filter_cons, Bool.false_and]
        rw [ha] at hb
        simpa [hb] using ih
    · by_cases hb : (a.IsActive && a.UserID == t) = true
      · simp only [List.map_cons, ha, if_false, List.filter_cons, hb, if_true, List.length_cons]
        exact Nat.succ_le_succ ih
      · simp only [List.map_cons, ha, if_false, List.filter_cons, hb]
        simpa using ih

theorem Assign_active_le_one (nodes : NodeStore) (fresh : UUID) (now : Time) (tenant : UUID)
    (asg : List NodeAssignment) (h : ∀ t, (activeOf t asg).length ≤ 1) (t : UUID) :
    (activeOf t (Assign nodes fresh now tenant asg).2).length ≤ 1 := by
  unfold Assign
  split
  · rename_i hemp
    split
    · exact h t
    · by_cases ht : tenant = t
      · subst ht
        have h0 : activeOf tenant asg = [] := by simpa using hemp
        simp only [activeOf] at h0
        simp [activeOf, List.filter_append, h0]
      · have := h t
        simp only [activeOf] at this
        simp [activeOf, List.filter_append, ht, this]
  · exact h t

theorem deactivate_active_le_one (tenant : UUID) (asg : List NodeAssignment)
    (h : ∀ t, (activeOf t asg).length ≤ 1) (t : UUID) :
    (activeOf t (deactivate tenant asg)).length ≤ 1 :=
  le_trans (activeOf_deactivate_length_le tenant t asg) (h t)

/-- C6: in every assignment table reachable through `Assign`, `Reassign` and `Unassign`,
each tenant has at most one active assignment; and `Assign` for a tenant who has an
active assignment fails with `Conflict` and leaves the table as it was. -/
theorem c6_at_most_one_active (asg : List NodeAssignment) (h : AssignReachable asg)
    (tenant : UUID) :
    (activeOf tenant asg).length ≤ 1 ∧
    ∀ nodes fresh now, activeOf tenant asg ≠ [] →
      Assign nodes fresh now tenant asg = (some AssignError.Conflict, asg) := by
  constructor
  · revert tenant
    induction h with
    | init => intro t; simp [activeOf]
    | assign nodes fresh now tenant _ ih => exact Assign_active_le_one nodes fresh now tenant _ ih
    | reassign nodes fresh now tenant _ ih =>
      exact Assign_active_le_one nodes fresh now tenant _ (deactivate_active_le_one tenant _ ih)
    | unassign tenant _ ih => exact deactivate_active_le_one tenant _ ih
  · intro nodes fresh now hne
    unfold Assign
    have : (activeOf tenant asg).isEmpty = false := by
      cases hx : activeOf tenant asg with
      | nil => exact absurd hx hne
      | cons a as => rfl
    simp [this]

/-- C6, witness: tenant 7 is assigned to the only online node; a second `Assign` for
tenant 7 is refused with `Conflict`. -/
theorem c6_at_most_one_active_witness :
    AssignReachable (Assign [{ sampleNode with Status := "online" }] 1 0 7 []).2 ∧
    (activeOf 7 (Assign [{ sampleNode with Status := "online" }] 1 0 7 []).2).length ≤ 1 ∧
    Assign [{ sampleNode with Status := "online" }] 2 5 7
        (Assign [{ sampleNode with Status := "online" }] 1 0 7 []).2
      = (some AssignError.Conflict,
          (Assign [{ sampleNode with Status := "online" }] 1 0 7 []).2) :=
  ⟨AssignReachable.assign _ 1 0 7 AssignReachable.init,
    (c6_at_most_one_active _ (AssignReachable.assign _ 1 0 7 AssignReachable.init) 7).1,
    (c6_at_most_one_active _ (AssignReachable.assign _ 1 0 7 AssignReachable.init) 7).2
      [{ sampleNode with Status := "online" }] 2 5 (by decide)⟩

/-! ## The deployment state machine (C7) -/

theorem chainOK_pred (a : DeploymentStatus) (rest : List DeploymentStatus)
    (h : chainOK a rest = true) (i : Nat) (b : DeploymentStatus)
    (hb : (a :: rest)[i + 1]? = some b) :
    ∃ p, (a :: rest)[i]? = some p ∧ canTransition p b = true := by
  induction rest generalizing a i with
  | nil => simp at hb
  | cons c rest ih =>
    simp only [chainOK, Bool.and_eq_true] at h
    cases i with
    | zero =>
      simp only [zero_add, List.getElem?_cons_succ, List.getElem?_cons_zero,
        Option.some.injEq] at hb
      subst hb
      exact ⟨a, by simp, h.1⟩
    | succ j =>
      have := ih c h.2 j (by simpa using hb)
      simpa using this

/-- C7: over the statuses Pending, Deploying, Success, Failed and RolledBack, the
transitions are exactly Pending to Deploying, Deploying to Success or Failed, and Success
to RolledBack. Hence a Deploying deployment can reach only Success or Failed, only a
Success deployment can reach RolledBack, and in every history of a deployment (starting
at Pending) a Success or Failed status is immediately preceded by Deploying. -/
theorem c7_deployment_state_machine (a b : DeploymentStatus) (hist : List DeploymentStatus)
    (i : Nat) :
    (canTransition a b = true ↔
      (a = .Pending ∧ b = .Deploying) ∨ (a = .Deploying ∧ b = .Success) ∨
      (a = .Deploying ∧ b = .Failed) ∨ (a = .Success ∧ b = .RolledBack)) ∧
    (canTransition .Deploying b = true ↔ b = .Success ∨ b = .Failed) ∧
    (canTransition a .RolledBack = true ↔ a = .Success) ∧
    (isHistory hist = true → (hist[i]? = some .Success ∨ hist[i]? = some .Failed) →
      ∃ j, i = j + 1 ∧ hist[j]? = some .Deploying) := by
  refine ⟨?_, ?_, ?_, ?_⟩
  · cases a <;> cases b <;> decide
  · cases b <;> decide
  · cases a <;> decide
  · intro hh hi
    cases hist with
    | nil => simp [isHistory] at hh
    | cons s rest =>
      simp only [isHistory, Bool.and_eq_true, decide_eq_true_eq] at hh
      obtain ⟨hs, hc⟩ := hh
      cases i with
      | zero =>
        simp only [List.getElem?_cons_zero, Option.some.injEq] at hi
        rw [hs] at hi
        rcases hi with hi | hi <;> cases hi
      | succ j =>
        refine ⟨j, rfl, ?_⟩
        rcases hi with hi | hi
        · obtain ⟨p, hp, ht⟩ := chainOK_pred s rest hc j _ hi
          rw [hp]
          cases p <;> first | rfl | (revert ht; decide)
        · obtain ⟨p, hp, ht⟩ := chainOK_pred s rest hc j _ hi
          rw [hp]
          cases p <;> first | rfl | (revert ht; decide)

/-- C7, witness: the history Pending, Deploying, Success, RolledBack; its Success at
index 2 is preceded by Deploying at index 1. -/
theorem c7_deployment_state_machine_witness :
    isHistory [.Pending, .Deploying, .Success, .RolledBack] = true ∧
    ∃ j, 2 = j + 1 ∧
      ([.Pending, .Deploying, .Success, .RolledBack] : List DeploymentStatus)[j]?
        = some .Deploying :=
  ⟨by decide,
    (c7_deployment_state_machine .Pending .Deploying
      [.Pending, .Deploying, .Success, .RolledBack] 2).2.2.2 (by decide) (Or.inl (by decide))⟩

/-! ## Reporting the outcome of a configuration push (C8) -/

/-- C8: against a reachable agent, whose `UpdateConfig` and `ReloadConfig` answer
`Success: false` with a nil error, `UpdateNodeConfig` returns `Success: true`; and so it
does for every node that answers both calls, whatever the two answers say. -/
theorem c8_update_config_reports_success_on_rejection :
    NodeManagerHandler.UpdateConfig Context.Background { Config := "{}" }
      = .ok { Success := false, Message := "Not implemented" } ∧
    NodeManagerHandler.ReloadConfig Context.Background {}
      = .ok { Success := false, Message := "Not implemented" } ∧
    NodeHandler.UpdateNodeConfig (fun _ => .ok agentClient) { deadline := some 30 }
        { NodeId := "n1", Config := "{}" }
      = .ok { Success := true } ∧
    ∀ (pushed : ConfigUpdateResponse) (reloaded : ReloadResponse) (ctx : Context)
      (req : UpdateNodeConfigRequest),
      NodeHandler.UpdateNodeConfig
          (fun _ => .ok { UpdateConfig := fun _ _ => .ok pushed,
                          ReloadConfig := fun _ _ => .ok reloaded }) ctx req
        = .ok { Success := true } :=
  ⟨rfl, rfl, rfl, fun _ _ _ _ => rfl⟩

/-! ## Deleting a node (C9) -/

theorem insertRow_ids (v : VPSNode) (db : NodeStore) (h : (db.map (fun n => n.ID)).Nodup) :
    ((insertRow v db).2.map (fun n => n.ID)).Nodup := by
  unfold insertRow
  cases fitColumns v with
  | none => exact h
  | some row =>
    dsimp only
    split
    · exact h
    · rename_i hany
      simp only [List.map_append, List.map_cons, List.map_nil]
      rw [List.nodup_append]
      refine ⟨h, List.nodup_singleton _, ?_⟩
      rw [List.disjoint_singleton]
      intro hmem
      apply hany
      rw [List.mem_map] at hmem
      obtain ⟨n, hn, hid⟩ := hmem
      rw [List.any_eq_true]
      exact ⟨n, hn, by simpa using hid⟩

theorem map_keep_ids (db : NodeStore) (f : VPSNode → VPSNode) (hf : ∀ n, (f n).ID = n.ID) :
    (db.map f).map (fun n => n.ID) = db.map (fun n => n.ID) := by
  rw [List.map_map]
  apply List.map_congr_left
  intro n _
  exact hf n

theorem dbSave_ids (fresh : UUID) (now : Time) (node : VPSNode) (db : NodeStore)
    (h : (db.map (fun n => n.ID)).Nodup) :
    ((dbSave fresh now node db).2.map (fun n => n.ID)).Nodup := by
  unfold dbSave
  split
  · exact insertRow_ids _ db h
  · split
    · cases hrow : fitColumns node with
      | none => exact h
      | some row =>
        dsimp only
        rw [map_keep_ids]
        · exact h
        · intro n
          by_cases hn : n.ID = node.ID <;> simp [hn, fitColumns_ID hrow]
    · exact insertRow_ids _ db h

/-- In every reachable store the ids are pairwise distinct (the id is the primary key). -/
theorem Reachable_ids_nodup {db : NodeStore} (h : Reachable db) :
    (db.map (fun n => n.ID)).Nodup := by
  induction h with
  | init => simp
  | create fresh now node _ ih => exact insertRow_ids _ _ ih
  | update fresh now node _ ih => exact dbSave_ids fresh now node _ ih
  | updateStatus id status _ ih =>
    unfold NodeRepository.UpdateStatus
    cases fitColumn 20 status with
    | none => exact ih
    | some st =>
      dsimp only
      rw [map_keep_ids]
      · exact ih
      · intro n
        by_cases hn : n.ID = id <;> simp [hn]
  | updateLastHeartbeat id heartbeat _ ih =>
    simp only [NodeRepository.UpdateLastHeartbeat]
    rw [map_keep_ids]
    · exact ih
    · intro n
      by_cases hn : n.ID = id <;> simp [hn]
  | delete referenced id _ ih =>
    unfold NodeRepository.Delete
    split
    · exact ih
    · exact (List.filter_sublist _).map _ |>.nodup ih

theorem filter_ne_length (db : NodeStore) (id : UUID) (hnd : (db.map (fun n => n.ID)).Nodup)
    (hex : ∃ n ∈ db, n.ID = id) :
    (db.filter (fun n => !(n.ID == id))).length + 1 = db.length := by
  induction db with
  | nil => simp at hex
  | cons a as ih =>
    rw [List.map_cons, List.nodup_cons] at hnd
    by_cases ha : a.ID = id
    · have hnot : ∀ n ∈ as, n.ID ≠ id := by
        intro n hn hid
        apply hnd.1
        rw [List.mem_map]
        exact ⟨n, hn, by rw [hid, ha]⟩
      have hfil : as.filter (fun n => !(n.ID == id)) = as := by
        rw [List.filter_eq_self]
        intro n hn
        simpa using hnot n hn
      simp [List.filter_cons, ha, hfil]
    · have hex2 : ∃ n ∈ as, n.ID = id := by
        obtain ⟨n, hn, hid⟩ := hex
        rcases List.mem_cons.mp hn with rfl | hn
        · exact absurd hid ha
        · exact ⟨n, hn, hid⟩
      have := ih hnd.2 hex2
      simp [List.filter_cons, ha]
      omega

/-- C9, counterexample: the store holds only node 1, to which no row of another table
refers; `Delete` of node 1 returns a nil error and leaves the store empty: the record is
gone and the number of records went from one to zero. -/
theorem c9_delete_removes_record :
    NodeRepository.Delete (fun _ => false) 1 [sampleNode] = (none, []) ∧
    sampleNode ∉ (NodeRepository.Delete (fun _ => false) 1 [sampleNode]).2 ∧
    (NodeRepository.Delete (fun _ => false) 1 [sampleNode]).2.length ≠ [sampleNode].length := by
  decide

/-- C9, amended: `Delete` is a hard removal. When no row of `node_assignments`,
`node_metrics` or `deployments` refers to the id, `Delete` returns a nil error, afterwards
no stored record has the id, and in a reachable store that held a record with the id the
number of records is one less. When such a row refers to a stored node, `Delete` is
refused with a foreign-key error and the store is unchanged. In either case every record
with another id is kept as it was, every record left was stored before (no record is
marked or rewritten), and the handler `DeleteNode` leaves the store that the `DeleteNode`
of its service leaves. -/
theorem c9_delete_is_hard_removal (referenced : UUID → Bool) (db : NodeStore) (id : UUID) :
    (referenced id = false →
      (NodeRepository.Delete referenced id db).1 = none ∧
      (∀ n ∈ (NodeRepository.Delete referenced id db).2, n.ID ≠ id) ∧
      (Reachable db → (∃ n ∈ db, n.ID = id) →
        (NodeRepository.Delete referenced id db).2.length + 1 = db.length)) ∧
    (referenced id = true → (∃ n ∈ db, n.ID = id) →
      NodeRepository.Delete referenced id db = (some DBError.ErrForeignKeyViolated, db)) ∧
    (∀ n, n.ID ≠ id → (n ∈ (NodeRepository.Delete referenced id db).2 ↔ n ∈ db)) ∧
    (∀ n ∈ (NodeRepository.Delete referenced id db).2, n ∈ db) ∧
    (∀ (σ : Type) (svc : NodeService σ) (s : σ),
      (NodeHandler.DeleteNode svc (some id) s).2 = (svc.DeleteNode id s).2) := by
  refine ⟨?_, ?_, ?_, ?_, ?_⟩
  · intro hfree
    have hdel : NodeRepository.Delete referenced id db
        = (none, db.filter (fun n => !(n.ID == id))) := by
      simp [NodeRepository.Delete, hfree]
    rw [hdel]
    refine ⟨rfl, ?_, ?_⟩
    · intro n hn
      simp only [List.mem_filter] at hn
      simpa using hn.2
    · intro hr hex
      exact filter_ne_length db id (Reachable_ids_nodup hr) hex
  · intro href hex
    have hany : db.any (fun n => n.ID == id) = true := by
      rw [List.any_eq_true]
      obtain ⟨n, hn, hid⟩ := hex
      exact ⟨n, hn, by simpa using hid⟩
    simp [NodeRepository.Delete, href, hany]
  · intro n hne
    unfold NodeRepository.Delete
    split
    · exact Iff.rfl
    · simp [List.mem_filter, hne]
  · intro n hn
    unfold NodeRepository.Delete at hn
    split at hn
    · exact hn
    · exact (List.mem_filter.mp hn).1
  · intro σ svc s
    simp only [NodeHandler.DeleteNode]
    rcases hres : svc.DeleteNode id s with ⟨_ | e, s1⟩ <;> rfl

/-- C9, witness: the amended statement at the reachable store holding the registered
sample node: unreferenced, its `Delete` leaves one record less; referenced, its `Delete`
is refused and the store is unchanged. -/
theorem c9_delete_is_hard_removal_witness :
    Reachable (NodeRepository.Create 1 0 (NodeHandler.newNode sampleRequest) []).2 ∧
    (∃ n ∈ (NodeRepository.Create 1 0 (NodeHandler.newNode sampleRequest) []).2, n.ID = 1) ∧
    (NodeRepository.Delete (fun _ => false) 1
        (NodeRepository.Create 1 0 (NodeHandler.newNode sampleRequest) []).2).2.length + 1
      = (NodeRepository.Create 1 0 (NodeHandler.newNode sampleRequest) []).2.length ∧
    NodeRepository.Delete (fun k => k == 1) 1
        (NodeRepository.Create 1 0 (NodeHandler.newNode sampleRequest) []).2
      = (some DBError.ErrForeignKeyViolated,
         (NodeRepository.Create 1 0 (NodeHandler.newNode sampleRequest) []).2) :=
  ⟨Reachable.create 1 0 _ Reachable.init, ⟨sampleNode, by decide, by decide⟩,
    ((c9_delete_is_hard_removal (fun _ => false) _ 1).1 rfl).2.2
      (Reachable.create 1 0 _ Reachable.init) ⟨sampleNode, by decide, by decide⟩,
    (c9_delete_is_hard_removal (fun k => k == 1) _ 1).2.1 (by decide)
      ⟨sampleNode, by decide, by decide⟩⟩

/-! ## Node status as a closed enumeration (C10) -/

/-- C10: an update request carrying the status "bogus", which is none of offline, online,
maintenance, error, is answered 200 and stores "bogus" as the status of node 1; so does
`UpdateStatus`. -/
theorem c10_update_stores_unlisted_status :
    "bogus" ∉ nodeStatuses ∧
    NodeHandler.UpdateNode (repoNodeService 9 0) (some 1)
        (some { Name := none, Hostname := none, IPAddress := none, Location := none,
                Country := none, GRPCPort := none, Status := some "bogus",
                Capabilities := none, Metadata := none }) [sampleNode]
      = ({ code := StatusOK, node := some { sampleNode with Status := "bogus" },
           error := none },
         [{ sampleNode with Status := "bogus" }]) ∧
    NodeRepository.UpdateStatus 1 "bogus" [sampleNode]
      = (none, [{ sampleNode with Status := "bogus" }]) := by
  decide

/-! ## The context of the orchestrator's remote calls (C11) -/

/-- C11: called with a context whose deadline is 30, `GetNodeConfig` and
`UpdateNodeConfig` reach the node with a context that has no deadline (the probing node
reports it for `GetStatus`, `UpdateConfig` and `ReloadConfig`); and for every node the
result of either handler is the same whatever the caller's context. -/
theorem c11_remote_calls_ignore_caller_context :
    NodeHandler.GetNodeConfig (fun _ => .ok (deadlineProbe false)) { deadline := some 30 }
        { NodeId := "n1" }
      = .ok { Config := "GetStatus: no deadline" } ∧
    NodeHandler.UpdateNodeConfig (fun _ => .ok (deadlineProbe true)) { deadline := some 30 }
        { NodeId := "n1", Config := "{}" }
      = .error (RPCError.Other "UpdateConfig: no deadline") ∧
    NodeHandler.UpdateNodeConfig (fun _ => .ok (deadlineProbe false)) { deadline := some 30 }
        { NodeId := "n1", Config := "{}" }
      = .error (RPCError.Other "ReloadConfig: no deadline") ∧
    (∀ (conn : String → Except RPCError NodeManagerClient) (ctx1 ctx2 : Context)
      (req : GetNodeConfigRequest),
      NodeHandler.GetNodeConfig conn ctx1 req = NodeHandler.GetNodeConfig conn ctx2 req) ∧
    (∀ (conn : String → Except RPCError NodeManagerClient) (ctx1 ctx2 : Context)
      (req : UpdateNodeConfigRequest),
      NodeHandler.UpdateNodeConfig conn ctx1 req = NodeHandler.UpdateNodeConfig conn ctx2 req) :=
  ⟨rfl, rfl, rfl, fun _ _ _ _ => rfl, fun _ _ _ _ => rfl⟩

/-! ## The status call of the agent (C12) -/

theorem convertStatus_nil_panics (status : GoMap) (hne : status ≠ [])
    (hall : ∀ e ∈ status, ∃ b, e.2 = GoValue.bool b) :
    convertStatus status none = Outcome.panic nilMapPanic := by
  cases status with
  | nil => exact absurd rfl hne
  | cons e rest =>
    obtain ⟨k, v⟩ := e
    obtain ⟨b, hb⟩ := hall (k, v) (List.mem_cons_self _ _)
    simp only at hb
    subst hb
    rfl

theorem manager_status_all_bool (cfg : Hysteria2Config) (host : HostStatus) :
    (HysteriaManagerImpl.GetHysteria2Status cfg host).2 = none ∧
    (HysteriaManagerImpl.GetHysteria2Status cfg host).1.length = 3 ∧
    ∀ e ∈ (HysteriaManagerImpl.GetHysteria2Status cfg host).1, ∃ b, e.2 = GoValue.bool b := by
  have hbase : ∀ b1 b2 b3 : Bool, ∀ e ∈ ([("installed", GoValue.bool b1),
      ("running", GoValue.bool b2), ("systemd", GoValue.bool b3)] : GoMap),
      ∃ b, e.2 = GoValue.bool b := by
    intro b1 b2 b3 e he
    simp only [List.mem_cons, List.mem_singleton, List.not_mem_nil, or_false] at he
    rcases he with rfl | rfl | rfl <;> exact ⟨_, rfl⟩
  have hset : ∀ b1 b2 b3 b4 : Bool, ∀ e ∈ GoMap.set ([("installed", GoValue.bool b1),
      ("running", GoValue.bool b2), ("systemd", GoValue.bool b3)] : GoMap) "running"
      (GoValue.bool b4), ∃ b, e.2 = GoValue.bool b := by
    intro b1 b2 b3 b4 e he
    have hl : GoMap.set ([("installed", GoValue.bool b1),
      ("running", GoValue.bool b2), ("systemd", GoValue.bool b3)] : GoMap) "running"
      (GoValue.bool b4) = [("installed", GoValue.bool b1), ("systemd", GoValue.bool b3),
        ("running", GoValue.bool b4)] := rfl
    rw [hl] at he
    simp only [List.mem_cons, List.mem_singleton, List.not_mem_nil, or_false] at he
    rcases he with rfl | rfl | rfl <;> exact ⟨_, rfl⟩
  unfold HysteriaManagerImpl.GetHysteria2Status
  cases hsys : cfg.EnableSystemd
  · exact ⟨rfl, rfl, hset _ _ _ _⟩
  · cases hout : host.systemctlIsActive with
    | none => exact ⟨rfl, rfl, hbase _ _ _⟩
    | some output =>
      by_cases hact : trimSpace output.data = "active".data
      · simp only [if_true, hact]
        exact ⟨trivial, rfl, hset _ _ _ _⟩
      · simp only [if_true, hact, if_false]
        exact ⟨trivial, rfl, hbase _ _ _⟩

/-- C12: for every agent configuration and every host state, the handler
`GetHysteria2Status` applied to the status map the manager reports ends in the run-time
panic of a write to a nil map, in whatever order the iteration visits the entries; it
returns no response. -/
theorem c12_status_handler_panics (cfg : Hysteria2Config) (host : HostStatus) :
    NodeManagerHandler.GetHysteria2Status (HysteriaManagerImpl.GetHysteria2Status cfg host)
      = Outcome.panic nilMapPanic ∧
    ∀ order : GoMap, order.Perm (HysteriaManagerImpl.GetHysteria2Status cfg host).1 →
      NodeManagerHandler.GetHysteria2Status (order, none) = Outcome.panic nilMapPanic := by
  obtain ⟨herr, hlen, hall⟩ := manager_status_all_bool cfg host
  have key : ∀ order : GoMap, order.Perm (HysteriaManagerImpl.GetHysteria2Status cfg host).1 →
      NodeManagerHandler.GetHysteria2Status (order, none) = Outcome.panic nilMapPanic := by
    intro order hperm
    have hne : order ≠ [] := by
      intro h
      have := hperm.length_eq
      rw [h, hlen] at this
      cases this
    have hconv := convertStatus_nil_panics order hne
      (fun e he => hall e (hperm.mem_iff.mp he))
    unfold NodeManagerHandler.GetHysteria2Status
    simp only [hconv]
  refine ⟨?_, key⟩
  have h := key _ (List.Perm.refl _)
  have hpair : HysteriaManagerImpl.GetHysteria2Status cfg host
      = ((HysteriaManagerImpl.GetHysteria2Status cfg host).1, none) := by
    rw [← herr]
  rw [hpair]
  exact h

/-- C12, witness: the status map of the sample agent, visited in reverse order, also ends
in the panic. -/
theorem c12_status_handler_panics_witness :
    NodeManagerHandler.GetHysteria2Status
        ((HysteriaManagerImpl.GetHysteria2Status sampleHysteria2Config
          { whichHysteria := true, systemctlIsActive := some "active\n",
            pgrepHysteria := false }).1.reverse, none)
      = Outcome.panic nilMapPanic :=
  (c12_status_handler_panics sampleHysteria2Config
    { whichHysteria := true, systemctlIsActive := some "active\n",
      pgrepHysteria := false }).2 _ (List.reverse_perm _)

/-! ## The metrics of a heartbeat (C13) -/

/-- C13: for every reading of the run time, the heartbeat request built from the metrics
`Collect` returns carries no metric at all: none of the seven values collected has
dynamic type `float64`, the only type the conversion keeps. -/
theorem c13_heartbeat_carries_no_metrics (rt : RuntimeStats) (nodeID : String)
    (Heartbeat : Context → HeartbeatRequest → Except RPCError HeartbeatResponse)
    (ctx : Context) :
    (MetricsCollectorImpl.Collect rt).1.map (fun e => e.1)
      = ["cpu_cores", "goroutines", "memory_alloc", "memory_total", "memory_sys",
         "memory_gc", "timestamp"] ∧
    (Agent.heartbeatRequest nodeID (MetricsCollectorImpl.Collect rt)).Metrics = [] ∧
    (Agent.sendHeartbeat nodeID (MetricsCollectorImpl.Collect rt) Heartbeat ctx).1.Metrics
      = [] := by
  refine ⟨rfl, rfl, ?_⟩
  unfold Agent.sendHeartbeat
  dsimp only
  split <;> rfl

/-! ## The password of a created user (C14) -/

theorem applyUserDefaults_Password (now : Time) (u : User) :
    (applyUserDefaults now u).Password = u.Password := rfl

theorem User_BeforeCreate_Password (fresh : UUID) (u : User) :
    (u.BeforeCreate fresh).Password = u.Password := by
  unfold User.BeforeCreate
  split <;> rfl

/-- C14: the record `CreateUser` hands to the repository, and the row the repository
writes, carry the request's password as it came: for every request the record's
`Password` equals the plaintext, and creating the sample user in the empty store leaves
one row whose password is the plaintext "correct horse battery". -/
theorem c14_password_stored_as_given :
    (∀ (req : CreateUserRequest) (fresh : UUID) (now : Time) (db : UserStore),
      (UserHandler.newUser req).Password = req.Password ∧
      (userService.CreateUser fresh now (UserHandler.newUser req) db).2.1.Password
        = req.Password) ∧
    (UserHandler.CreateUser (userServiceImpl 1 0) (some sampleUserRequest) []).1.code
      = StatusCreated ∧
    (UserHandler.CreateUser (userServiceImpl 1 0) (some sampleUserRequest) []).2.map
        (fun u => u.Password)
      = ["correct horse battery"] := by
  refine ⟨fun req fresh now db => ⟨rfl, ?_⟩, by decide, by decide⟩
  unfold userService.CreateUser userRepository.Create
  dsimp only
  rw [applyUserDefaults_Password, User_BeforeCreate_Password]
  rfl

/-! ## The claims of an issued token (C15) -/

/-- C15: the access token issued at instant 1000 for user 42 validates at instant 1500
with the user's id and an empty username and role; `JWTAuth` stores that empty role,
and `RequireRole("admin")` then answers 403 instead of calling the next handler. For
every user, key, lifetime and instant, a token `GenerateJWT` issues either fails to
validate or validates with an empty username and an empty role. -/
theorem c15_issued_token_has_empty_role :
    (match authService.GenerateTokenPair sampleAuthConfig 1000 42 with
      | .error _ => none
      | .ok pair => some (authService.ValidateToken sampleAuthConfig 1500 pair.AccessToken))
      = some (.ok { UserID := UUID.String 42, Username := "", Role := "" }) ∧
    JWTAuth (fun _ => .ok { UserID := UUID.String 42, Username := "", Role := "" })
        "Bearer t" []
      = MiddlewareResult.next
          [("user_id", GoValue.string (UUID.String 42)), ("username", GoValue.string ""),
           ("role", GoValue.string "")] ∧
    RequireRole "admin"
        [("user_id", GoValue.string (UUID.String 42)), ("username", GoValue.string ""),
         ("role", GoValue.string "")]
      = MiddlewareResult.respond StatusForbidden "Insufficient permissions" ∧
    (∀ (now later : Time) (userID : UUID) (secret : String) (expiry : Int),
      match GenerateJWT now userID secret expiry with
      | .error _ => False
      | .ok token =>
        ValidateJWT later token secret
          = .ok { UserID := userID.String, Username := "", Role := "" } ∨
        ∃ e, ValidateJWT later token secret = .error e) := by
  refine ⟨by rfl, rfl, rfl, ?_⟩
  intro now later userID secret expiry
  simp only [GenerateJWT, ValidateJWT]
  by_cases hv : timeClaimsValid later
      [("user_id", GoValue.string userID.String), ("username", GoValue.string ""),
       ("role", GoValue.string ""), ("iat", GoValue.int64 now),
       ("exp", GoValue.int64 (now + expiry)), ("iss", GoValue.string "hysteria2-api"),
       ("sub", GoValue.string userID.String)] = true
  · left
    simp [hv, GoMap.get]
  · right
    simp [hv]

/-! ## The `Authorization` header (C16) -/

theorem splitOnSpace_ne_nil (cs : List Char) : splitOnSpace cs ≠ [] := by
  cases cs with
  | nil => simp [splitOnSpace]
  | cons c cs =>
    rw [splitOnSpace]
    split
    · simp
    · split <;> simp

theorem splitOnSpace_one (cs a : List Char) :
    splitOnSpace cs = [a] ↔ cs = a ∧ ' ' ∉ a := by
  induction cs generalizing a with
  | nil =>
    simp only [splitOnSpace, List.cons.injEq, and_true]
    constructor
    · intro h
      subst h
      exact ⟨rfl, by simp⟩
    · intro h
      exact h.1
  | cons c cs ih =>
    rw [splitOnSpace]
    by_cases hc : c = ' '
    · simp only [hc, if_true]
      constructor
      · intro h
        simp only [List.cons.injEq] at h
        exact absurd h.2 (splitOnSpace_ne_nil cs)
      · rintro ⟨rfl, hn⟩
        simp at hn
    · simp only [hc, if_false]
      cases hs : splitOnSpace cs with
      | nil => exact absurd hs (splitOnSpace_ne_nil cs)
      | cons part parts =>
        simp only [List.cons.injEq, and_true]
        constructor
        · rintro ⟨rfl, rfl⟩
          have h := (ih part).1 hs
          refine ⟨by rw [h.1], ?_⟩
          intro hmem
          rcases List.mem_cons.mp hmem with h1 | h1
          · exact hc h1.symm
          · exact h.2 h1
        · rintro ⟨rfl, hn⟩
          have hcs : ' ' ∉ cs := fun hm => hn (List.mem_cons_of_mem c hm)
          have h := (ih cs).2 ⟨rfl, hcs⟩
          rw [hs] at h
          simp only [List.cons.injEq] at h
          exact ⟨by rw [h.1], h.2⟩

theorem splitOnSpace_two (cs a b : List Char) :
    splitOnSpace cs = [a, b] ↔ cs = a ++ ' ' :: b ∧ ' ' ∉ a ∧ ' ' ∉ b := by
  induction cs generalizing a with
  | nil =>
    simp [splitOnSpace]
  | cons c cs ih =>
    rw [splitOnSpace]
    by_cases hc : c = ' '
    · simp only [hc, if_true, List.cons.injEq]
      rw [splitOnSpace_one]
      constructor
      · rintro ⟨rfl, rfl, hb⟩
        exact ⟨rfl, by simp, hb⟩
      · rintro ⟨h, ha, hb⟩
        cases a with
        | nil =>
          simp only [List.nil_append, List.cons.injEq, true_and] at h
          exact ⟨rfl, h, hb⟩
        | cons x xs =>
          simp only [List.cons_append, List.cons.injEq] at h
          exact absurd (by rw [← h.1]; exact List.mem_cons_self _ _) ha
    · simp only [hc, if_false]
      cases hs : splitOnSpace cs with
      | nil => exact absurd hs (splitOnSpace_ne_nil cs)
      | cons part parts =>
        simp only [List.cons.injEq]
        constructor
        · rintro ⟨rfl, rfl⟩
          have h := (ih part).1 hs
          refine ⟨by rw [h.1]; rfl, ?_, h.2.2⟩
          intro hmem
          rcases List.mem_cons.mp hmem with h1 | h1
          · exact hc h1.symm
          · exact h.2.1 h1
        · rintro ⟨h, ha, hb⟩
          cases a with
          | nil =>
            simp only [List.nil_append, List.cons.injEq] at h
            exact absurd h.1 hc
          | cons x xs =>
            simp only [List.cons_append, List.cons.injEq] at h
            obtain ⟨rfl, rfl⟩ := h
            have hxs : ' ' ∉ xs := fun hm => ha (List.mem_cons_of_mem _ hm)
            have h2 := (ih xs).2 ⟨rfl, hxs, hb⟩
            rw [hs] at h2
            simp only [List.cons.injEq] at h2
            exact ⟨by rw [h2.1], h2.2⟩

theorem bearer_header_data (header token : String) :
    header = "Bearer " ++ token ↔
      header.data = ['B', 'e', 'a', 'r', 'e', 'r'] ++ ' ' :: token.data := by
  constructor
  · rintro rfl
    rfl
  · intro h
    apply String.ext
    rw [h]
    rfl

/-- C16: `JWTAuth` calls the next handler if and only if the header is "Bearer", one
space and a token without a space that `ValidateToken` accepts; in every other case it
answers 401 and does not call the next handler. -/
theorem c16_jwtauth_passes_iff_bearer_token (ValidateToken : String → Except String Claims)
    (authHeader : String) (locals : GoMap) :
    ((∃ l, JWTAuth ValidateToken authHeader locals = MiddlewareResult.next l) ↔
      ∃ token claims, authHeader = "Bearer " ++ token ∧ ' ' ∉ token.data ∧
        ValidateToken token = .ok claims) ∧
    ((∃ l, JWTAuth ValidateToken authHeader locals = MiddlewareResult.next l) ∨
      ∃ msg, JWTAuth ValidateToken authHeader locals
        = MiddlewareResult.respond StatusUnauthorized msg) := by
  constructor
  · constructor
    · rintro ⟨l, hl⟩
      unfold JWTAuth at hl
      split at hl
      · cases hl
      · split at hl
        · rename_i scheme token hsplit
          split at hl
          · cases hl
          · rename_i hscheme
            split at hl
            · cases hl
            · rename_i claims hvalid
              have h2 := (splitOnSpace_two _ _ _).1 hsplit
              have hs : scheme = ['B', 'e', 'a', 'r', 'e', 'r'] := by
                have : String.mk scheme = "Bearer" := not_not.mp hscheme
                exact congrArg String.data this
              refine ⟨String.mk token, claims, ?_, h2.2.2, hvalid⟩
              rw [bearer_header_data, h2.1, hs]
        · cases hl
    · rintro ⟨token, claims, hhead, hsp, hvalid⟩
      have hdata := (bearer_header_data authHeader token).1 hhead
      have hsplit : splitOnSpace authHeader.data = [['B', 'e', 'a', 'r', 'e', 'r'], token.data] :=
        (splitOnSpace_two _ _ _).2 ⟨hdata, by decide, hsp⟩
      have hne : authHeader ≠ "" := by
        intro h
        rw [h] at hdata
        simp at hdata
      unfold JWTAuth
      rw [if_neg hne, hsplit]
      simp only []
      have hb : String.mk ['B', 'e', 'a', 'r', 'e', 'r'] = "Bearer" := rfl
      rw [hb]
      simp only [ne_eq, not_true_eq_false, if_false]
      have ht : String.mk token.data = token := rfl
      rw [ht, hvalid]
      exact ⟨_, rfl⟩
  · unfold JWTAuth
    split
    · exact Or.inr ⟨_, rfl⟩
    · split
      · split
        · exact Or.inr ⟨_, rfl⟩
        · split
          · exact Or.inr ⟨_, rfl⟩
          · exact Or.inl ⟨_, rfl⟩
      · exact Or.inr ⟨_, rfl⟩

/-! ## Obfuscation in the generated configuration (C17) -/

theorem GoMap_get_set_self (m : GoMap) (k : String) (v : GoValue) :
    (m.set k v).get k = some v := by
  unfold GoMap.get GoMap.set
  have hnone : (m.filter (fun e => !(e.1 == k))).find? (fun e => e.1 == k) = none := by
    rw [List.find?_eq_none]
    intro e he
    have := (List.mem_filter.mp he).2
    simpa using this
  rw [List.find?_append, hnone]
  simp

theorem GoMap_get_set_ne (m : GoMap) (k j : String) (v : GoValue) (h : j ≠ k) :
    (m.set k v).get j = m.get j := by
  unfold GoMap.get GoMap.set
  have hk : ¬ k = j := fun e => h e.symm
  congr 1
  induction m with
  | nil => simp [hk]
  | cons e es ih =>
    obtain ⟨ek, ev⟩ := e
    by_cases hek : ek = k
    · subst hek
      simpa [List.filter_cons, List.find?_cons, hk] using ih
    · by_cases hej : ek = j
      · subst hej
        simp [List.filter_cons, List.find?_cons, hek]
      · simpa [List.filter_cons, List.find?_cons, hek, hej] using ih

/-- C17, counterexample: with port hopping enabled and the sample template, whose entries
include `"hopping": "keep"`, the configuration generated after `EnableSalamander("p")` has
the `obfs` entry, but its `hopping` entry is no longer the template's: it is the
port-hopping entry of the agent's configuration. -/
theorem c17_template_hopping_entry_replaced :
    readSampleTemplate sampleTemplate = .ok (GoValue.map sampleTemplateFields) ∧
    GoMap.get sampleTemplateFields "hopping" = some (GoValue.string "keep") ∧
    HysteriaManagerImpl.configMap readSampleTemplate
        (HysteriaManagerImpl.EnableSalamander "p"
          (HysteriaManagerImpl.EnablePortHopping 10000 20000 30 sampleHysteria2Config))
        sampleTemplate
      = Outcome.ok (some
          [("listen", GoValue.string ":443"),
           ("obfs", salamanderEntry "p"),
           ("hopping", GoValue.map
             [("interval", GoValue.int 30), ("start", GoValue.int 10000),
              ("end", GoValue.int 20000)])]) ∧
    GoMap.get
        [("listen", GoValue.string ":443"),
         ("obfs", salamanderEntry "p"),
         ("hopping", GoValue.map
           [("interval", GoValue.int 30), ("start", GoValue.int 10000),
            ("end", GoValue.int 20000)])] "hopping"
      ≠ GoMap.get sampleTemplateFields "hopping" ∧
    HysteriaManagerImpl.GenerateConfig readSampleTemplate writeSample
        (HysteriaManagerImpl.EnableSalamander "p"
          (HysteriaManagerImpl.EnablePortHopping 10000 20000 30 sampleHysteria2Config))
        sampleTemplate
      = Outcome.ok ("\x7b\"listen\": \":443\", " ++
          "\"obfs\": \x7b\"type\": \"salamander\", \"password\": \"p\"\x7d, " ++
          "\"hopping\": \x7b\"interval\": 30, \"start\": 10000, \"end\": 20000\x7d\x7d") := by
  refine ⟨rfl, rfl, rfl, ?_, rfl⟩
  simp [GoMap.get, sampleTemplateFields]

/-- C17, amended: for every password `p` and every template that is empty or reads as a
JSON object, after `EnableSalamander(p)` the configuration `GenerateConfig` returns is the
text `json.MarshalIndent` writes for a map `m` (a text is returned exactly when that
writing succeeds, and is its result) whose `obfs` entry is
`{type: "salamander", password: p}`; every other entry of `m` is that of the template as
`json.Unmarshal` reads it (of the default configuration, for the empty template), except
the `hopping` entry when port hopping is enabled, which is then the agent's port-hopping
entry. -/
theorem c17_salamander_entry_set (jsonDecode : String → Except String GoValue)
    (jsonMarshalIndent : GoValue → Except String String) (cfg : Hysteria2Config)
    (p configTemplate : String) (fields : GoMap)
    (h : configTemplate = "" ∨ jsonDecode configTemplate = .ok (GoValue.map fields)) :
    ∃ m, HysteriaManagerImpl.configMap jsonDecode
          (HysteriaManagerImpl.EnableSalamander p cfg) configTemplate = Outcome.ok (some m) ∧
      m.get "obfs" = some (salamanderEntry p) ∧
      (∀ k, k ≠ "obfs" → (cfg.PortHopping = false ∨ k ≠ "hopping") →
        m.get k = GoMap.get
          (if configTemplate = "" then HysteriaManagerImpl.generateDefaultConfig cfg
            else fields) k) ∧
      (cfg.PortHopping = true → m.get "hopping" = some (hoppingEntry cfg)) ∧
      HysteriaManagerImpl.GenerateConfig jsonDecode jsonMarshalIndent
          (HysteriaManagerImpl.EnableSalamander p cfg) configTemplate
        = (match jsonMarshalIndent (GoValue.map m) with
          | .error e => Outcome.error ("failed to marshal config: " ++ e)
          | .ok configJSON => Outcome.ok configJSON) ∧
      (∀ text, HysteriaManagerImpl.GenerateConfig jsonDecode jsonMarshalIndent
            (HysteriaManagerImpl.EnableSalamander p cfg) configTemplate = Outcome.ok text
          ↔ jsonMarshalIndent (GoValue.map m) = .ok text) := by
  have hiff : ∀ (r : Except String String) (text : String),
      (match r with
        | .error e => Outcome.error ("failed to marshal config: " ++ e)
        | .ok configJSON => Outcome.ok configJSON) = Outcome.ok text ↔ r = .ok text := by
    intro r text
    cases r with
    | error e => simp
    | ok t => simp
  have core : ∃ m, HysteriaManagerImpl.configMap jsonDecode
          (HysteriaManagerImpl.EnableSalamander p cfg) configTemplate = Outcome.ok (some m) ∧
      m.get "obfs" = some (salamanderEntry p) ∧
      (∀ k, k ≠ "obfs" → (cfg.PortHopping = false ∨ k ≠ "hopping") →
        m.get k = GoMap.get
          (if configTemplate = "" then HysteriaManagerImpl.generateDefaultConfig cfg
            else fields) k) ∧
      (cfg.PortHopping = true → m.get "hopping" = some (hoppingEntry cfg)) ∧
      HysteriaManagerImpl.GenerateConfig jsonDecode jsonMarshalIndent
          (HysteriaManagerImpl.EnableSalamander p cfg) configTemplate
        = (match jsonMarshalIndent (GoValue.map m) with
          | .error e => Outcome.error ("failed to marshal config: " ++ e)
          | .ok configJSON => Outcome.ok configJSON) := by
    -- the map before the options are applied
    have hparsed : ∃ base : GoMap,
        base = (if configTemplate = "" then HysteriaManagerImpl.generateDefaultConfig cfg
          else fields) ∧
        HysteriaManagerImpl.configMap jsonDecode
            (HysteriaManagerImpl.EnableSalamander p cfg) configTemplate
          = HysteriaManagerImpl.applyConfigOptions
              (HysteriaManagerImpl.EnableSalamander p cfg) (some base) := by
      by_cases ht : configTemplate = ""
      · refine ⟨_, rfl, ?_⟩
        simp [HysteriaManagerImpl.configMap, ht, HysteriaManagerImpl.generateDefaultConfig,
          HysteriaManagerImpl.EnableSalamander]
      · have hd : jsonDecode configTemplate = .ok (GoValue.map fields) := by
          rcases h with h | h
          · exact absurd h ht
          · exact h
        refine ⟨_, rfl, ?_⟩
        simp [HysteriaManagerImpl.configMap, ht, hd, HysteriaManagerImpl.unmarshalMap]
    obtain ⟨base, hbase, hcfg⟩ := hparsed
    rw [← hbase]
    cases hhop : cfg.PortHopping
    · refine ⟨base.set "obfs" (salamanderEntry p), ?_, ?_, ?_, ?_, ?_⟩
      · rw [hcfg]
        simp [HysteriaManagerImpl.applyConfigOptions, HysteriaManagerImpl.EnableSalamander,
          HysteriaManagerImpl.assign, hhop, salamanderEntry]
      · exact GoMap_get_set_self _ _ _
      · intro k hk _
        exact GoMap_get_set_ne _ _ _ _ hk
      · intro hx
        cases hx
      · unfold HysteriaManagerImpl.GenerateConfig
        rw [hcfg]
        simp [HysteriaManagerImpl.applyConfigOptions, HysteriaManagerImpl.EnableSalamander,
          HysteriaManagerImpl.assign, hhop, salamanderEntry]
    · refine ⟨(base.set "obfs" (salamanderEntry p)).set "hopping" (hoppingEntry cfg),
        ?_, ?_, ?_, ?_, ?_⟩
      · rw [hcfg]
        simp [HysteriaManagerImpl.applyConfigOptions, HysteriaManagerImpl.EnableSalamander,
          HysteriaManagerImpl.assign, hhop, salamanderEntry, hoppingEntry]
      · rw [GoMap_get_set_ne _ _ _ _ (by decide)]
        exact GoMap_get_set_self _ _ _
      · intro k hk hor
        have hkh : k ≠ "hopping" := by
          rcases hor with hor | hor
          · cases hor
          · exact hor
        rw [GoMap_get_set_ne _ _ _ _ hkh]
        exact GoMap_get_set_ne _ _ _ _ hk
      · intro _
        exact GoMap_get_set_self _ _ _
      · unfold HysteriaManagerImpl.GenerateConfig
        rw [hcfg]
        simp [HysteriaManagerImpl.applyConfigOptions, HysteriaManagerImpl.EnableSalamander,
          HysteriaManagerImpl.assign, hhop, salamanderEntry, hoppingEntry]
  obtain ⟨m, h1, h2, h3, h4, h5⟩ := core
  refine ⟨m, h1, h2, h3, h4, h5, ?_⟩
  intro text
  rw [h5]
  exact hiff _ text

/-- C17, witness: the amended statement with port hopping enabled and the sample
template, which has a listening address, an `obfs` entry and a `hopping` entry of its own:
in the configuration returned, written by the sample writer, the listening address is the
template's, the `obfs` entry is the salamander entry and the `hopping` entry is the
agent's. -/
theorem c17_salamander_entry_set_witness :
    (sampleTemplate = "" ∨
      readSampleTemplate sampleTemplate = .ok (GoValue.map sampleTemplateFields)) ∧
    (HysteriaManagerImpl.EnablePortHopping 10000 20000 30 sampleHysteria2Config).PortHopping
      = true ∧
    ∃ m, HysteriaManagerImpl.configMap readSampleTemplate
          (HysteriaManagerImpl.EnableSalamander "p"
            (HysteriaManagerImpl.EnablePortHopping 10000 20000 30 sampleHysteria2Config))
          sampleTemplate = Outcome.ok (some m) ∧
      m.get "obfs" = some (salamanderEntry "p") ∧
      m.get "listen" = GoMap.get sampleTemplateFields "listen" ∧
      m.get "listen" = some (GoValue.string ":443") ∧
      m.get "hopping" = some (hoppingEntry
        (HysteriaManagerImpl.EnablePortHopping 10000 20000 30 sampleHysteria2Config)) ∧
      HysteriaManagerImpl.GenerateConfig readSampleTemplate writeSample
          (HysteriaManagerImpl.EnableSalamander "p"
            (HysteriaManagerImpl.EnablePortHopping 10000 20000 30 sampleHysteria2Config))
          sampleTemplate
        = Outcome.ok ("\x7b\"listen\": \":443\", " ++
            "\"obfs\": \x7b\"type\": \"salamander\", \"password\": \"p\"\x7d, " ++
            "\"hopping\": \x7b\"interval\": 30, \"start\": 10000, \"end\": 20000\x7d\x7d") := by
  refine ⟨Or.inr rfl, rfl, ?_⟩
  obtain ⟨m, hm, hobfs, hother, hhop, hgen, _⟩ :=
    c17_salamander_entry_set readSampleTemplate writeSample
      (HysteriaManagerImpl.EnablePortHopping 10000 20000 30 sampleHysteria2Config) "p"
      sampleTemplate sampleTemplateFields (Or.inr rfl)
  have hlisten := hother "listen" (by decide) (Or.inr (by decide))
  have hfields : (if sampleTemplate = "" then
        HysteriaManagerImpl.generateDefaultConfig
          (HysteriaManagerImpl.EnablePortHopping 10000 20000 30 sampleHysteria2Config)
      else sampleTemplateFields) = sampleTemplateFields := if_neg (by decide)
  rw [hfields] at hlisten
  have hmap : HysteriaManagerImpl.configMap readSampleTemplate
      (HysteriaManagerImpl.EnableSalamander "p"
        (HysteriaManagerImpl.EnablePortHopping 10000 20000 30 sampleHysteria2Config))
      sampleTemplate
      = Outcome.ok (some
          [("listen", GoValue.string ":443"), ("obfs", salamanderEntry "p"),
           ("hopping", hoppingEntry
             (HysteriaManagerImpl.EnablePortHopping 10000 20000 30
               sampleHysteria2Config))]) := rfl
  rw [hm] at hmap
  injection hmap with hmap
  injection hmap with hmap
  refine ⟨m, hm, hobfs, hlisten, hlisten.trans rfl, hhop rfl, ?_⟩
  rw [hgen, hmap]
  rfl

/-! ## The configuration a node reports (C18) -/

/-- C18: for every node that is reached and answers the status call, `GetNodeConfig`
returns the reported configuration when it is not empty and "{}" when it is empty; the
`Config` of a response it returns is never the empty string. -/
theorem c18_get_node_config_default
    (getNodeConnection : String → Except RPCError NodeManagerClient) (ctx : Context)
    (req : GetNodeConfigRequest) :
    (∀ client resp, getNodeConnection req.NodeId = .ok client →
      client.GetStatus Context.Background {} = .ok resp →
      NodeHandler.GetNodeConfig getNodeConnection ctx req
        = .ok { Config := if resp.HysteriaConfig = "" then "{}" else resp.HysteriaConfig }) ∧
    (∀ r, NodeHandler.GetNodeConfig getNodeConnection ctx req = .ok r → r.Config ≠ "") := by
  constructor
  · intro client resp hconn hstatus
    unfold NodeHandler.GetNodeConfig
    rw [hconn]
    simp only []
    rw [hstatus]
  · intro r hr
    unfold NodeHandler.GetNodeConfig at hr
    split at hr
    · cases hr
    · split at hr
      · cases hr
      · rename_i resp _
        simp only [Except.ok.injEq] at hr
        rw [← hr]
        simp only []
        split
        · decide
        · assumption

/-- C18, witness: the agent's placeholder reports an empty configuration, and
`GetNodeConfig` returns "{}". -/
theorem c18_get_node_config_default_witness :
    agentClient.GetStatus Context.Background {} = .ok { HysteriaConfig := "" } ∧
    NodeHandler.GetNodeConfig (fun _ => .ok agentClient) { deadline := none } { NodeId := "n1" }
      = .ok { Config := "{}" } :=
  ⟨rfl,
    (c18_get_node_config_default (fun _ => .ok agentClient) { deadline := none }
      { NodeId := "n1" }).1 agentClient { HysteriaConfig := "" } rfl rfl⟩

/-! ## Login (C20) -/

theorem foldl_least_mem (us : List User) (u : User) :
    us.foldl (fun best m => if m.ID < best.ID then m else best) u ∈ u :: us := by
  induction us generalizing u with
  | nil => simp
  | cons a as ih =>
    simp only [List.foldl_cons]
    have h := ih (if a.ID < u.ID then a else u)
    rcases List.mem_cons.mp h with h1 | h1
    · rw [h1]
      split
      · exact List.mem_cons_of_mem _ (List.mem_cons_self _ _)
      · exact List.mem_cons_self _ _
    · exact List.mem_cons_of_mem _ (List.mem_cons_of_mem _ h1)

theorem GetByEmail_ok {email : String} {db : UserStore} {user : User}
    (h : userRepository.GetByEmail email db = .ok user) : user ∈ db ∧ user.Email = email := by
  unfold userRepository.GetByEmail at h
  split at h
  · cases h
  · rename_i u us hf
    simp only [Except.ok.injEq] at h
    have hmem : user ∈ db.filter (fun u => u.Email == email) := by
      rw [hf, ← h]
      exact foldl_least_mem us u
    have := List.mem_filter.mp hmem
    exact ⟨this.1, by simpa using this.2⟩

theorem GetByEmail_exists {email : String} {db : UserStore}
    (h : ∃ u ∈ db, u.Email = email) : ∃ user, userRepository.GetByEmail email db = .ok user := by
  obtain ⟨u, hu, he⟩ := h
  unfold userRepository.GetByEmail
  split
  · rename_i hf
    have : u ∈ db.filter (fun u => u.Email == email) :=
      List.mem_filter.mpr ⟨hu, by simpa using he⟩
    rw [hf] at this
    cases this
  · exact ⟨_, rfl⟩

/-- C20: `Login` returns a user if and only if `GetByEmail` finds that user (a user with
the email exists), the password verifies against the stored hash and the status is
"active". It fails with "invalid credentials" exactly when no user has the email or the
password does not verify, whatever the status, and with "account is not active" exactly
when the user is found, the password verifies and the status is not "active". -/
theorem c20_login_outcomes (IDKey : Argon2) (now : Time) (email password : String)
    (db : UserStore) :
    ((∃ u ∈ db, u.Email = email) ↔ ∃ user, userRepository.GetByEmail email db = .ok user) ∧
    (∀ user, (authService.Login IDKey now email password db).1 = .ok user ↔
      (userRepository.GetByEmail email db = .ok user ∧
        authService.verifyPassword IDKey password user.Password = true ∧
        user.Status = "active")) ∧
    ((authService.Login IDKey now email password db).1 = .error "invalid credentials" ↔
      ((∃ e, userRepository.GetByEmail email db = .error e) ∨
        ∃ user, userRepository.GetByEmail email db = .ok user ∧
          authService.verifyPassword IDKey password user.Password = false)) ∧
    ((authService.Login IDKey now email password db).1 = .error "account is not active" ↔
      ∃ user, userRepository.GetByEmail email db = .ok user ∧
        authService.verifyPassword IDKey password user.Password = true ∧
        user.Status ≠ "active") := by
  refine ⟨⟨GetByEmail_exists, fun ⟨user, h⟩ => ⟨user, GetByEmail_ok h⟩⟩, ?_, ?_, ?_⟩
  · intro user
    cases hg : userRepository.GetByEmail email db with
    | error e => simp [authService.Login, hg]
    | ok found =>
      cases hv : authService.verifyPassword IDKey password found.Password
      · simp only [authService.Login, hg, hv, Bool.not_false, if_true]
        constructor
        · intro h
          cases h
        · rintro ⟨h1, h2, _⟩
          simp only [Except.ok.injEq] at h1
          rw [← h1, hv] at h2
          cases h2
      · by_cases hs : found.Status = "active"
        · simp only [authService.Login, hg, hv, Bool.not_true, Bool.false_eq_true, if_false,
            ne_eq, hs, not_true_eq_false, Except.ok.injEq]
          constructor
          · intro h
            subst h
            exact ⟨rfl, hv, hs⟩
          · rintro ⟨h1, _, _⟩
            exact h1
        · simp only [authService.Login, hg, hv, Bool.not_true, Bool.false_eq_true, if_false,
            ne_eq, hs, not_false_eq_true, if_true, Except.ok.injEq]
          constructor
          · intro h
            cases h
          · rintro ⟨h1, _, h3⟩
            rw [← h1] at h3
            exact absurd h3 hs
  · cases hg : userRepository.GetByEmail email db with
    | error e => simp [authService.Login, hg]
    | ok found =>
      cases hv : authService.verifyPassword IDKey password found.Password
      · simp only [authService.Login, hg, hv, Bool.not_false, if_true, true_iff]
        exact Or.inr ⟨found, rfl, hv⟩
      · by_cases hs : found.Status = "active"
        · simp only [authService.Login, hg, hv, Bool.not_true, Bool.false_eq_true, if_false,
            ne_eq, hs, not_true_eq_false]
          constructor
          · intro h
            cases h
          · rintro (⟨e, he⟩ | ⟨user, h1, h2⟩)
            · cases he
            · simp only [Except.ok.injEq] at h1
              rw [← h1, hv] at h2
              cases h2
        · simp only [authService.Login, hg, hv, Bool.not_true, Bool.false_eq_true, if_false,
            ne_eq, hs, not_false_eq_true, if_true]
          constructor
          · intro h
            simp only [Except.error.injEq] at h
            exact absurd h (by decide)
          · rintro (⟨e, he⟩ | ⟨user, h1, h2⟩)
            · cases he
            · simp only [Except.ok.injEq] at h1
              rw [← h1, hv] at h2
              cases h2
  · cases hg : userRepository.GetByEmail email db with
    | error e =>
      simp only [authService.Login, hg]
      constructor
      · intro h
        simp only [Except.error.injEq] at h
        exact absurd h (by decide)
      · rintro ⟨user, h1, _⟩
        cases h1
    | ok found =>
      cases hv : authService.verifyPassword IDKey password found.Password
      · simp only [authService.Login, hg, hv, Bool.not_false, if_true]
        constructor
        · intro h
          simp only [Except.error.injEq] at h
          exact absurd h (by decide)
        · rintro ⟨user, h1, h2, _⟩
          simp only [Except.ok.injEq] at h1
          rw [← h1, hv] at h2
          cases h2
      · by_cases hs : found.Status = "active"
        · simp only [authService.Login, hg, hv, Bool.not_true, Bool.false_eq_true, if_false,
            ne_eq, hs, not_true_eq_false]
          constructor
          · intro h
            cases h
          · rintro ⟨user, h1, _, h3⟩
            simp only [Except.ok.injEq] at h1
            rw [← h1] at h3
            exact absurd hs h3
        · simp only [authService.Login, hg, hv, Bool.not_true, Bool.false_eq_true, if_false,
            ne_eq, hs, not_false_eq_true, if_true, true_iff]
          exact ⟨found, rfl, hv, hs⟩

/-! ## Hashing and verifying a password (C19) -/

theorem hexDigit_hexDigitChar : ∀ n, n < 16 → hexDigit (hexDigitChar n) = some n := by
  decide

theorem hexDigitChar_not_space :
    ∀ n, n < 16 → hexDigitChar n ≠ '\n' ∧ isSpace (hexDigitChar n) = false := by
  decide

theorem byte_of_digits (b : Byte) : (Fin.ofNat (b.val / 16 * 16 + b.val % 16) : Byte) = b := by
  apply Fin.ext
  have h := b.isLt
  simp only [Fin.ofNat, Nat.div_add_mod']
  omega

theorem hexPairs_hexEncode_append (bs : List Byte) (t : List Char)
    (ht : hexPairs t = .ok []) : hexPairs (hexEncode bs ++ t) = .ok bs := by
  induction bs with
  | nil => simpa [hexEncode] using ht
  | cons b bs ih =>
    have h1 : b.val / 16 < 16 := by have := b.isLt; omega
    have h2 : b.val % 16 < 16 := by omega
    simp only [hexEncode, List.cons_append]
    rw [hexPairs, hexDigit_hexDigitChar _ h1, hexDigit_hexDigitChar _ h2]
    simp only [ih, byte_of_digits]

theorem sscanfHex_hexEncode_append (b : Byte) (bs : List Byte) (t : List Char)
    (ht : hexPairs t = .ok []) :
    sscanfHex (String.mk (hexEncode (b :: bs) ++ t)) = .ok (b :: bs) := by
  have h1 : b.val / 16 < 16 := by have := b.isLt; omega
  have hp := hexPairs_hexEncode_append (b :: bs) t ht
  have hsk : skipSpace (hexEncode (b :: bs) ++ t) = .ok (hexEncode (b :: bs) ++ t) := by
    simp only [hexEncode, List.cons_append]
    rw [skipSpace]
    simp [(hexDigitChar_not_space _ h1).1, (hexDigitChar_not_space _ h1).2]
  unfold sscanfHex
  simp only [hsk]
  simp only [hexEncode, List.cons_append] at hp ⊢
  rw [hp]

theorem verifyPassword_of_scan (IDKey : Argon2) (q stored : String) (salt hash : List Byte)
    (hs : salt.length = 32) (hscan : sscanfHex stored = .ok (salt ++ hash)) :
    authService.verifyPassword IDKey q stored
      = decide (hash = IDKey q salt 1 (64 * 1024) 4 32) := by
  unfold authService.verifyPassword
  rw [hscan]
  have hlen : ¬ (salt ++ hash).length < 32 := by
    rw [List.length_append]
    omega
  have htake : (salt ++ hash).take 32 = salt := by
    rw [← hs]
    exact List.take_left' rfl
  have hdrop : (salt ++ hash).drop 32 = hash := by
    rw [← hs]
    exact List.drop_left' rfl
  simp only [hlen, if_false, htake, hdrop]

/-- C19, counterexample: with the stand-in key derivation and the salt of 32 zero bytes,
the stored string followed by "zz" is not a hexadecimal string (the scanner's `hexDigit`
refuses 'z'), yet `verifyPassword` accepts it. -/
theorem c19_accepts_stored_string_with_trailing_text :
    authService.hashPassword zeroKDF (.ok (List.replicate 32 0)) "pw"
      = .ok (String.mk (List.replicate 128 '0')) ∧
    hexDigit 'z' = none ∧
    authService.verifyPassword zeroKDF "pw" (String.mk (List.replicate 128 '0' ++ ['z', 'z']))
      = true := by
  refine ⟨rfl, by decide, ?_⟩
  have hscan := sscanfHex_hexEncode_append (0 : Byte) (List.replicate 63 0) ['z', 'z'] rfl
  have hdata : hexEncode ((0 : Byte) :: List.replicate 63 0) ++ ['z', 'z']
      = List.replicate 128 '0' ++ ['z', 'z'] := by decide
  rw [hdata] at hscan
  have hsplit : ((0 : Byte) :: List.replicate 63 0)
      = List.replicate 32 0 ++ List.replicate 32 0 := by decide
  rw [hsplit] at hscan
  rw [verifyPassword_of_scan zeroKDF "pw" _ (List.replicate 32 0) (List.replicate 32 0)
    (by decide) hscan]
  decide

/-- C19, amended: for every password `p` and every 32-byte salt `s`, `hashPassword`
produces the lower-case hex of `s` followed by the hash of `p` under `s`; `verifyPassword`
accepts that string for `p`, and for every password `q` it accepts it if and only if the
hash of `q` under `s` equals the stored hash. It rejects every stored string on which the
hex scan fails or that scans to fewer than 32 bytes. Text after the last pair of hex
digits that does not start a pair is ignored: the stored string followed by such text is
accepted exactly when the stored string is. -/
theorem c19_hash_verify_roundtrip (IDKey : Argon2) (p : String) (s : List Byte)
    (hs : s.length = 32) :
    authService.hashPassword IDKey (.ok s) p
      = .ok (String.mk (hexEncode (s ++ IDKey p s 1 (64 * 1024) 4 32))) ∧
    authService.verifyPassword IDKey p
        (String.mk (hexEncode (s ++ IDKey p s 1 (64 * 1024) 4 32))) = true ∧
    (∀ q, authService.verifyPassword IDKey q
          (String.mk (hexEncode (s ++ IDKey p s 1 (64 * 1024) 4 32))) = true ↔
        IDKey q s 1 (64 * 1024) 4 32 = IDKey p s 1 (64 * 1024) 4 32) ∧
    (∀ q stored, ((∃ e, sscanfHex stored = .error e) ∨
        ∃ bytes, sscanfHex stored = .ok bytes ∧ bytes.length < 32) →
      authService.verifyPassword IDKey q stored = false) ∧
    (∀ q t, hexPairs t = .ok [] →
      authService.verifyPassword IDKey q
          (String.mk (hexEncode (s ++ IDKey p s 1 (64 * 1024) 4 32) ++ t))
        = authService.verifyPassword IDKey q
          (String.mk (hexEncode (s ++ IDKey p s 1 (64 * 1024) 4 32)))) := by
  obtain ⟨b, bs, hb⟩ : ∃ b bs, s = b :: bs := by
    cases s with
    | nil => simp at hs
    | cons b bs => exact ⟨b, bs, rfl⟩
  have hscan : ∀ t, hexPairs t = .ok [] →
      sscanfHex (String.mk (hexEncode (s ++ IDKey p s 1 (64 * 1024) 4 32) ++ t))
        = .ok (s ++ IDKey p s 1 (64 * 1024) 4 32) := by
    intro t ht
    rw [hb, List.cons_append]
    exact sscanfHex_hexEncode_append b _ t ht
  have hscan0 := hscan [] rfl
  rw [List.append_nil] at hscan0
  have hver : ∀ q, authService.verifyPassword IDKey q
      (String.mk (hexEncode (s ++ IDKey p s 1 (64 * 1024) 4 32)))
        = decide (IDKey p s 1 (64 * 1024) 4 32 = IDKey q s 1 (64 * 1024) 4 32) :=
    fun q => verifyPassword_of_scan IDKey q _ s _ hs hscan0
  refine ⟨rfl, ?_, ?_, ?_, ?_⟩
  · rw [hver]
    simp
  · intro q
    rw [hver]
    simp only [decide_eq_true_eq]
    exact eq_comm
  · intro q stored h
    unfold authService.verifyPassword
    rcases h with ⟨e, he⟩ | ⟨bytes, hbytes, hlen⟩
    · rw [he]
    · rw [hbytes]
      simp [hlen]
  · intro q t ht
    rw [hver, verifyPassword_of_scan IDKey q _ s _ hs (hscan t ht)]

/-- C19, witness: the amended statement at the stand-in key derivation and the salt of 32
zero bytes. -/
theorem c19_hash_verify_roundtrip_witness :
    (List.replicate 32 (0 : Byte)).length = 32 ∧
    authService.verifyPassword zeroKDF "pw"
        (String.mk (hexEncode (List.replicate 32 0 ++
          zeroKDF "pw" (List.replicate 32 0) 1 (64 * 1024) 4 32))) = true :=
  ⟨by decide, (c19_hash_verify_roundtrip zeroKDF "pw" (List.replicate 32 0) (by decide)).2.1⟩

/-! ## Refreshing with any valid token (C21) -/

theorem ValidateJWT_issued (now later : Time) (userID : UUID) (secret : String) (expiry : Int)
    (h : (later : Int) < now + expiry) :
    ValidateJWT later
      (TokenString.compact "HS256"
        [("user_id", GoValue.string userID.String), ("username", GoValue.string ""),
         ("role", GoValue.string ""), ("iat", GoValue.int64 now),
         ("exp", GoValue.int64 (now + expiry)), ("iss", GoValue.string "hysteria2-api"),
         ("sub", GoValue.string userID.String)] secret) secret
      = .ok { UserID := userID.String, Username := "", Role := "" } := by
  have hq : ((later : Nat) : Rat) < ((now : Nat) : Rat) + ((expiry : Int) : Rat) := by
    exact_mod_cast h
  simp [ValidateJWT, timeClaimsValid, GoMap.get, GoValue.number?, hq]

/-- C21: `RefreshToken` accepts an access token as it accepts a refresh token. For every
token pair `GenerateTokenPair` issues for a user whose id text `uuid.Parse` reads back,
`RefreshToken` on the access token, at an instant before its expiry, succeeds with the
pair `GenerateTokenPair` issues for the same user at that instant. And `RefreshToken(t)`
succeeds exactly when `ValidateToken(t)` succeeds with a user id that `uuid.Parse`
accepts; where the user id does not parse, it panics. -/
theorem c21_refresh_accepts_any_valid_token (uuidParse : String → Option UUID)
    (s : AuthConfig) :
    (∀ (now later : Time) (userID : UUID), (later : Int) < now + s.jwtExpiry →
      uuidParse userID.String = some userID →
      ∃ pair renewed, authService.GenerateTokenPair s now userID = .ok pair ∧
        authService.GenerateTokenPair s later userID = .ok renewed ∧
        authService.RefreshToken uuidParse s later pair.AccessToken = Outcome.ok renewed) ∧
    (∀ (now : Time) (t : TokenString),
      (∃ pair, authService.RefreshToken uuidParse s now t = Outcome.ok pair) ↔
        ∃ claims userID, authService.ValidateToken s now t = .ok claims ∧
          uuidParse claims.UserID = some userID) ∧
    (∀ (now : Time) (t : TokenString) (claims : Claims),
      authService.ValidateToken s now t = .ok claims → uuidParse claims.UserID = none →
      ∃ msg, authService.RefreshToken uuidParse s now t = Outcome.panic msg) := by
  refine ⟨?_, ?_, ?_⟩
  · intro now later userID hlt hparse
    have hv := ValidateJWT_issued now later userID s.jwtSecret s.jwtExpiry hlt
    refine ⟨_, _, rfl, rfl, ?_⟩
    simp only [authService.RefreshToken, hv, hparse]
    rfl
  · intro now t
    unfold authService.RefreshToken authService.ValidateToken
    cases hval : ValidateJWT now t s.jwtSecret with
    | error e => simp
    | ok claims =>
      cases hp : uuidParse claims.UserID with
      | none =>
        simp only [hp]
        constructor
        · rintro ⟨pair, hpair⟩
          cases hpair
        · rintro ⟨c, u, hc, hu⟩
          simp only [Except.ok.injEq] at hc
          rw [← hc, hp] at hu
          cases hu
      | some userID =>
        simp only [hp]
        constructor
        · intro _
          exact ⟨claims, userID, rfl, hp⟩
        · intro _
          exact ⟨_, rfl⟩
  · intro now t claims hval hp
    unfold authService.ValidateToken at hval
    unfold authService.RefreshToken
    rw [hval]
    simp only [hp]
    exact ⟨_, rfl⟩

/-- C21, witness: the access token issued at instant 1000 for user 42 (lifetime one hour)
is accepted by `RefreshToken` at instant 1500. -/
theorem c21_refresh_accepts_any_valid_token_witness :
    ((1500 : Nat) : Int) < (1000 : Nat) + sampleAuthConfig.jwtExpiry ∧
    parseUUID42 (UUID.String 42) = some 42 ∧
    ∃ pair renewed, authService.GenerateTokenPair sampleAuthConfig 1000 42 = .ok pair ∧
      authService.GenerateTokenPair sampleAuthConfig 1500 42 = .ok renewed ∧
      authService.RefreshToken parseUUID42 sampleAuthConfig 1500 pair.AccessToken
        = Outcome.ok renewed :=
  ⟨by decide, by decide,
    (c21_refresh_accepts_any_valid_token parseUUID42 sampleAuthConfig).1 1000 1500 42
      (by decide) (by decide)⟩

/-! ## Generating a configuration from the template `null` (C22) -/

/-- C22: for the template `null`, which reads as JSON but leaves the map nil,
`GenerateConfig` ends in the run-time panic of a write to a nil map whenever Salamander
or port hopping is enabled; with both disabled it returns the writing of the value
`null`, which is not the text of a JSON object. -/
theorem c22_generate_config_null_template :
    (∀ (jsonMarshalIndent : GoValue → Except String String) (cfg : Hysteria2Config)
      (p : String),
      HysteriaManagerImpl.GenerateConfig decodeNull jsonMarshalIndent
          (HysteriaManagerImpl.EnableSalamander p cfg) "null"
        = Outcome.panic nilMapPanic) ∧
    (∀ (jsonMarshalIndent : GoValue → Except String String) (cfg : Hysteria2Config)
      (startPort endPort interval : Int),
      HysteriaManagerImpl.GenerateConfig decodeNull jsonMarshalIndent
          (HysteriaManagerImpl.EnablePortHopping startPort endPort interval
            (HysteriaManagerImpl.DisableSalamander cfg)) "null"
        = Outcome.panic nilMapPanic) ∧
    (∀ (cfg : Hysteria2Config),
      HysteriaManagerImpl.GenerateConfig decodeNull
          (fun v => match v with
            | GoValue.nil => .ok "null"
            | _ => .ok "{}")
          (HysteriaManagerImpl.DisablePortHopping
            (HysteriaManagerImpl.DisableSalamander cfg)) "null"
        = Outcome.ok "null") :=
  ⟨fun _ _ _ => rfl, fun _ _ _ _ _ => rfl, fun _ => rfl⟩

/-! ## The placeholder operations (C24) -/

/-- C24: `ConfigManager.UpdateConfig` returns the nil error for every configuration, and
the handlers `GetStatus` and `GetMetrics` return an empty response with a nil error: none
of the three signals a failure, and the orchestrator reads the empty status as the
configuration "{}". The other placeholders do signal one: `StreamMetrics` returns an
error, the rest a response with `Success: false`. -/
theorem c24_placeholders_reporting_success :
    (∀ config, ConfigManagerImpl.UpdateConfig config = none) ∧
    (∀ ctx, NodeManagerHandler.GetStatus ctx {} = .ok { HysteriaConfig := "" }) ∧
    (∀ ctx, NodeManagerHandler.GetMetrics ctx = .ok {}) ∧
    (∀ ctx, NodeHandler.GetNodeConfig (fun _ => .ok agentClient) ctx { NodeId := "n1" }
      = .ok { Config := "{}" }) ∧
    (∀ ctx req, NodeManagerHandler.UpdateConfig ctx req
      = .ok { Success := false, Message := "Not implemented" }) ∧
    (∀ ctx req, NodeManagerHandler.ReloadConfig ctx req
      = .ok { Success := false, Message := "Not implemented" }) ∧
    (∀ ctx, NodeManagerHandler.AddUser ctx
      = .ok { Success := false, Message := "Not implemented" }) ∧
    (∀ ctx, NodeManagerHandler.RemoveUser ctx
      = .ok { Success := false, Message := "Not implemented" }) ∧
    (∀ ctx, NodeManagerHandler.UpdateUser ctx
      = .ok { Success := false, Message := "Not implemented" }) ∧
    NodeManagerHandler.StreamMetrics = some (RPCError.Other "not implemented") ∧
    (∀ ctx, NodeManagerHandler.RestartServer ctx
      = .ok { Success := false, Message := "Not implemented" }) ∧
    (∀ ctx, NodeManagerHandler.GetLogs ctx
      = .ok { Success := false, Logs := ["Not implemented"] }) :=
  ⟨fun _ => rfl, fun _ => rfl, fun _ => rfl, fun _ => rfl, fun _ _ => rfl, fun _ _ => rfl,
    fun _ => rfl, fun _ => rfl, fun _ => rfl, rfl, fun _ => rfl, fun _ => rfl⟩

/-! ## The interface names of a listing (C23) -/

theorem containsColonSpace_append_sep (a r : List Char) :
    containsColonSpace (a ++ ':' :: ' ' :: r) = true := by
  induction a with
  | nil => simp [containsColonSpace]
  | cons c a ih => simp [containsColonSpace, ih]

theorem splitOnColonSpace_sep (a r : List Char) (h : containsColonSpace a = false) :
    splitOnColonSpace (a ++ ':' :: ' ' :: r) = a :: splitOnColonSpace r := by
  induction a with
  | nil => simp [splitOnColonSpace]
  | cons c a ih =>
    simp only [containsColonSpace, Bool.or_eq_false_iff] at h
    have iha := ih h.2
    cases a with
    | nil =>
      simp only [List.nil_append] at iha
      simp only [List.cons_append, List.nil_append, splitOnColonSpace, iha]
      simp
    | cons d a =>
      have hcd : ¬ (c = ':' ∧ d = ' ') := by
        rintro ⟨rfl, rfl⟩
        simp at h
      simp only [List.cons_append] at iha
      simp only [List.cons_append, splitOnColonSpace, hcd, if_false, List.append_eq, iha]

theorem foldl_append_filterMap (f : List Char → Option String) (lines : List (List Char))
    (init : List String) :
    lines.foldl
        (fun interfaces line =>
          match f line with
          | some ifaceName => interfaces ++ [ifaceName]
          | none => interfaces) init
      = init ++ lines.filterMap f := by
  induction lines generalizing init with
  | nil => simp
  | cons l ls ih =>
    simp only [List.foldl_cons, List.filterMap_cons]
    cases hf : f l with
    | none => simp only [ih]
    | some n => simp only [ih, List.append_assoc, List.singleton_append]

theorem interfaceOfLine_wellFormed (e : LinkLine) (h : e.wellFormed = true) :
    NetworkManagerImpl.interfaceOfLine e.text
      = (e.name?).bind (fun n => if n ≠ "lo" then some n else none) := by
  cases e with
  | other text =>
    simp only [LinkLine.wellFormed, Bool.not_eq_true'] at h
    simp [NetworkManagerImpl.interfaceOfLine, LinkLine.text, LinkLine.name?, h]
  | header index name flags =>
    simp only [LinkLine.wellFormed, Bool.and_eq_true, Bool.not_eq_true', decide_eq_true_eq,
      List.isEmpty_eq_true] at h
    obtain ⟨⟨⟨hi, hn⟩, hne⟩, htrim⟩ := h
    have hsplit : splitOnColonSpace (index ++ ':' :: ' ' :: (name ++ ':' :: ' ' :: flags))
        = index :: name :: splitOnColonSpace flags := by
      rw [splitOnColonSpace_sep _ _ hi, splitOnColonSpace_sep _ _ hn]
    have hlo : (String.mk name = "lo") ↔ name = ['l', 'o'] := by
      constructor
      · intro hx
        exact congrArg String.data hx
      · intro hx
        rw [hx]
    have hne' : name ≠ [] := by
      intro hx
      rw [hx] at hne
      cases hne
    simp only [NetworkManagerImpl.interfaceOfLine, LinkLine.text, LinkLine.name?,
      containsColonSpace_append_sep, if_true, hsplit, htrim, Option.some_bind]
    by_cases hx : name = ['l', 'o']
    · simp [hx, hlo]
    · simp [hx, hne', hlo]

theorem filterMap_listing (entries : List LinkLine)
    (h : ∀ e ∈ entries, e.wellFormed = true) :
    (entries.map LinkLine.text).filterMap NetworkManagerImpl.interfaceOfLine
      = (entries.filterMap LinkLine.name?).filter (fun n => decide (n ≠ "lo")) := by
  induction entries with
  | nil => rfl
  | cons e es ih =>
    have he := interfaceOfLine_wellFormed e (h e (List.mem_cons_self _ _))
    have ih' := ih (fun x hx => h x (List.mem_cons_of_mem _ hx))
    simp only [List.map_cons, List.filterMap_cons, he]
    cases hn : e.name? with
    | none => simpa using ih'
    | some n =>
      by_cases hlo : n = "lo"
      · simp [hlo, ih']
      · simp [hlo, ih']

theorem trimSpace_ends (x : List Char) (h : trimSpace x ≠ []) :
    (∀ c, (trimSpace x).head? = some c → isSpace c = false) ∧
    (∀ c, (trimSpace x).getLast? = some c → isSpace c = false) := by
  constructor
  · intro c hc
    have hpre : trimSpace x <+: x.dropWhile isSpace :=
      List.rdropWhile_prefix isSpace (x.dropWhile isSpace)
    obtain ⟨t, ht⟩ := hpre
    cases htr : trimSpace x with
    | nil => exact absurd htr h
    | cons a as =>
      rw [htr] at hc ht
      simp only [List.head?_cons, Option.some.injEq] at hc
      subst hc
      have hd : x.dropWhile isSpace = a :: (as ++ t) := by
        rw [← ht]
        rfl
      have hnot := List.head_dropWhile_not isSpace x (by rw [hd]; simp)
      simp only [hd, List.head_cons] at hnot
      simpa using hnot
  · intro c hc
    have hnot := List.rdropWhile_last_not isSpace (x.dropWhile isSpace) h
    have hl : (trimSpace x).getLast? = some ((trimSpace x).getLast h) :=
      List.getLast?_eq_getLast _ h
    rw [hl] at hc
    simp only [Option.some.injEq] at hc
    rw [← hc]
    simpa [trimSpace] using hnot

theorem interfaceOfLine_some (line : List Char) (n : String)
    (h : NetworkManagerImpl.interfaceOfLine line = some n) :
    n ≠ "" ∧ n ≠ "lo" ∧ (∀ c, n.data.head? = some c → isSpace c = false) ∧
      (∀ c, n.data.getLast? = some c → isSpace c = false) := by
  unfold NetworkManagerImpl.interfaceOfLine at h
  split at h
  · split at h
    · rename_i second _ _
      simp only at h
      split at h
      · rename_i hcond
        simp only [Option.some.injEq] at h
        subst h
        refine ⟨?_, ?_, (trimSpace_ends second hcond.1).1, (trimSpace_ends second hcond.1).2⟩
        · intro hx
          exact hcond.1 (congrArg String.data hx)
        · intro hx
          exact hcond.2 (congrArg String.data hx)
      · cases h
    · cases h
  · cases h

/-- C23: for every `ip link show` output whose lines are interface headers
`<index>: <name>: <flags...>` (no ": " in the index or in the name, the name not empty and
without white space at its ends) and other lines that contain no ": ",
`GetNetworkInterfaces` returns exactly the names of the headers other than "lo", in
listing order. For every output whatsoever, no name returned is empty, is "lo", or
starts or ends with white space. -/
theorem c23_interface_names (output : String) :
    (∀ entries : List LinkLine, splitOnChar '\n' output.data = entries.map LinkLine.text →
      (∀ e ∈ entries, e.wellFormed = true) →
      NetworkManagerImpl.GetNetworkInterfaces (.ok output)
        = .ok ((entries.filterMap LinkLine.name?).filter (fun n => decide (n ≠ "lo")))) ∧
    (∀ names, NetworkManagerImpl.GetNetworkInterfaces (.ok output) = .ok names →
      ∀ n ∈ names, n ≠ "" ∧ n ≠ "lo" ∧ (∀ c, n.data.head? = some c → isSpace c = false) ∧
        (∀ c, n.data.getLast? = some c → isSpace c = false)) := by
  constructor
  · intro entries hlines hwf
    unfold NetworkManagerImpl.GetNetworkInterfaces
    simp only [foldl_append_filterMap, List.nil_append, hlines, filterMap_listing entries hwf]
  · intro names hnames n hn
    unfold NetworkManagerImpl.GetNetworkInterfaces at hnames
    simp only [foldl_append_filterMap, List.nil_append, Except.ok.injEq] at hnames
    rw [← hnames, List.mem_filterMap] at hn
    obtain ⟨line, _, hline⟩ := hn
    exact interfaceOfLine_some line n hline

/-- C23, witness: the sample listing (loopback and `eth0`) yields the one name "eth0". -/
theorem c23_interface_names_witness :
    splitOnChar '\n' sampleListingOutput.data = sampleListing.map LinkLine.text ∧
    (∀ e ∈ sampleListing, e.wellFormed = true) ∧
    NetworkManagerImpl.GetNetworkInterfaces (.ok sampleListingOutput) = .ok ["eth0"] :=
  ⟨by decide, by decide,
    (c23_interface_names sampleListingOutput).1 sampleListing (by decide) (by decide)⟩

end Hysteria2
